import Mathlib

/-!
# Verification of the restaurant conversational-agent turn pipeline

A shallow embedding of the turn-processing pipeline of the repository
(`src/agent/chat_agents.py`, `src/agent/query_planner.py`,
`src/memory/store.py`) in Lean 4, together with theorems settling the
frozen claims about the natural-language specification.

Modelling conventions:
* Python strings are Lean `String`s; most helpers are implemented over
  `List Char` (`String.data`) to keep induction simple.
* The language-model collaborator and the tool collaborators are oracles
  (`LLMFun`, `ToolFun`) returning `Except String String`: `.error e`
  models the underlying call raising an exception with message `e`.
* JSON numbers are modelled as integers (every numeric literal relevant
  to the verified properties is an integer).
* The SQLite-backed memory store is modelled as a list of records, most
  recent first, with a counter supplying both fresh ids (`uuid4` in the
  source) and strictly increasing timestamps (`datetime.now()`).
* Process-level setup (logger creation, graph compilation, opening the
  checkpoint database) is treated as pure; log statements are no-ops.
-/

set_option linter.unusedVariables false

namespace RestaurantAi

/-! ## Python-style character and string helpers -/

/-- Word character in the sense of the regex class `\w` (ASCII). -/
def isWordChar (c : Char) : Bool :=
  c.isAlphanum || c = '_'

/-- Character allowed inside an extracted name: the regex class
`[A-Za-z\-'’]` of `NAME_PATTERNS`. -/
def isNameChar (c : Char) : Bool :=
  c.isAlpha || c = '-' || c = '\'' || c = '’'

/-- Character allowed inside a captured preference phrase: the regex
class `[\w\s\-]` of `PREF_PATTERNS`. -/
def isPhraseChar (c : Char) : Bool :=
  isWordChar c || c.isWhitespace || c = '-'

/-- Python `str.strip()` on a character list. -/
def pyStripL (l : List Char) : List Char :=
  ((l.dropWhile Char.isWhitespace).reverse.dropWhile Char.isWhitespace).reverse

/-- Python `str.strip()`. -/
def pyStrip (s : String) : String :=
  String.mk (pyStripL s.data)

/-- Python `str.strip(chars)` for an explicit character set. -/
def pyStripChars (cs : List Char) (s : String) : String :=
  String.mk (((s.data.dropWhile (cs.contains ·)).reverse.dropWhile (cs.contains ·)).reverse)

/-- Python `str.lower()` (ASCII case folding, which covers all uses in
the source). -/
def pyLower (s : String) : String :=
  String.mk (s.data.map Char.toLower)

/-- Python `str.startswith(pre)`. -/
def pyStartsWith (s pre : String) : Bool :=
  pre.data.isPrefixOf s.data

/-- `needle in hay` for character lists (Python substring test). -/
def listHasSub (hay needle : List Char) : Bool :=
  needle.isPrefixOf hay ||
    match hay with
    | [] => false
    | _ :: t => listHasSub t needle

/-- Python `needle in hay` on strings. -/
def pyContains (hay needle : String) : Bool :=
  listHasSub hay.data needle.data

/-- Python `list[-n:]`: the last (at most) `n` elements. -/
def takeLast {α : Type} (l : List α) (n : Nat) : List α :=
  l.drop (l.length - n)

/-- Split a character list at the first occurrence of `sep`
(`str.partition`): returns the part before and the part after. -/
def splitAtChar (sep : Char) : List Char → Option (List Char × List Char)
  | [] => none
  | c :: rest =>
    if c = sep then some ([], rest)
    else
      match splitAtChar sep rest with
      | some (a, b) => some (c :: a, b)
      | none => none

/-- Python `content.partition(":")` restricted to the two parts the
source uses: the key before the first colon and the value after it
(`none` when there is no colon). -/
def pyPartitionColon (s : String) : Option (String × String) :=
  match splitAtChar ':' s.data with
  | some (a, b) => some (String.mk a, String.mk b)
  | none => none

/-- Python `content.split(":", 1)[-1]`: everything after the first
colon, or the whole string when there is none. -/
def afterFirstColon (s : String) : String :=
  match splitAtChar ':' s.data with
  | some (_, b) => String.mk b
  | none => s

/-- Insertion sort on strings by code points (Python `sorted`). -/
def insertSorted (x : String) : List String → List String
  | [] => [x]
  | y :: ys => if x ≤ y then x :: y :: ys else y :: insertSorted x ys

/-- Python `sorted(xs)` for strings. -/
def sortStrings : List String → List String
  | [] => []
  | x :: xs => insertSorted x (sortStrings xs)

/-- Python `sorted(set(xs))` for strings: deduplicate, then sort. -/
def sortedSet (xs : List String) : List String :=
  sortStrings xs.dedup

/-! ## JSON values and a model of `json.loads` -/

/-- JSON value as produced by `json.loads` (numbers restricted to
integers; see the file header). -/
inductive Jval where
  | jnull : Jval
  | jbool : Bool → Jval
  | jnum : Int → Jval
  | jstr : String → Jval
  | jarr : List Jval → Jval
  | jobj : List (String × Jval) → Jval
  deriving Repr

/-- Python truthiness of a JSON value (`if not data`, `args.get(k) and …`). -/
def jTruthy : Jval → Bool
  | .jnull => false
  | .jbool b => b
  | .jnum n => n ≠ 0
  | .jstr s => s ≠ ""
  | .jarr l => !l.isEmpty
  | .jobj l => !l.isEmpty

/-- Python `str(v)` for a JSON value, to the fidelity the source needs:
only strings are ever rendered where the exact text matters; for the
other constructors only non-emptiness of the rendering is relevant. -/
def jStr : Jval → String
  | .jnull => "None"
  | .jbool true => "True"
  | .jbool false => "False"
  | .jnum n => toString n
  | .jstr s => s
  | .jarr _ => "[...]"
  | .jobj _ => "\x7b...\x7d"

/-- Lookup in a JSON object (`data.get(k)`); parsed objects have unique
keys (see `insertField`), so first match is the dict lookup. -/
def jlookup (fields : List (String × Jval)) (k : String) : Option Jval :=
  match fields.find? (fun p => p.1 = k) with
  | some p => some p.2
  | none => none

/-- `dict` insertion while parsing a JSON object: a duplicate key keeps
its original position and takes the later value, as in Python. -/
def insertField (fields : List (String × Jval)) (k : String) (v : Jval) :
    List (String × Jval) :=
  match fields with
  | [] => [(k, v)]
  | (k', v') :: rest =>
    if k' = k then (k', v) :: rest else (k', v') :: insertField rest k v

/-- JSON whitespace. -/
def isJsonWs (c : Char) : Bool :=
  c = ' ' || c = '\t' || c = '\n' || c = '\r'

/-- Hexadecimal digit test. -/
def isHexDig (c : Char) : Bool :=
  c.isDigit || ('a' ≤ c && c ≤ 'f') || ('A' ≤ c && c ≤ 'F')

/-- Numeric value of a hexadecimal digit. -/
def hexVal (c : Char) : Nat :=
  if c.isDigit then c.toNat - 48
  else if 'a' ≤ c ∧ c ≤ 'f' then c.toNat - 87
  else if 'A' ≤ c ∧ c ≤ 'F' then c.toNat - 55
  else 0

/-- Numeric value of a run of decimal digits. -/
def digitsVal (l : List Char) : Nat :=
  l.foldl (fun n c => 10 * n + (c.toNat - 48)) 0

/-- Decode one JSON string escape; `none` on an invalid escape. -/
def jsonEscape (c : Char) : Option Char :=
  if c = '"' then some '"'
  else if c = '\\' then some '\\'
  else if c = '/' then some '/'
  else if c = 'n' then some '\n'
  else if c = 't' then some '\t'
  else if c = 'r' then some '\r'
  else if c = 'b' then some (Char.ofNat 8)
  else if c = 'f' then some (Char.ofNat 12)
  else none

/-- Parse the body of a JSON string literal (after the opening quote). -/
def parseJString : Nat → List Char → Option (List Char × List Char)
  | 0, _ => none
  | _, [] => none
  | fuel + 1, c :: rest =>
    if c = '"' then some ([], rest)
    else if c = '\\' then
      match rest with
      | [] => none
      | e :: rest' =>
        if e = 'u' then
          match rest' with
          | h1 :: h2 :: h3 :: h4 :: rest'' =>
            match isHexDig h1 && isHexDig h2 && isHexDig h3 && isHexDig h4 with
            | true =>
              let n := 4096 * hexVal h1 + 256 * hexVal h2 + 16 * hexVal h3 + hexVal h4
              match parseJString fuel rest'' with
              | some (cs, r) => some (Char.ofNat n :: cs, r)
              | none => none
            | false => none
          | _ => none
        else
          match jsonEscape e with
          | some d =>
            match parseJString fuel rest' with
            | some (cs, r) => some (d :: cs, r)
            | none => none
          | none => none
    else
      match parseJString fuel rest with
      | some (cs, r) => some (c :: cs, r)
      | none => none

/-- Parse a run of decimal digits. -/
def parseDigits (l : List Char) : Option (Nat × List Char) :=
  let run := l.takeWhile Char.isDigit
  if run.isEmpty then none
  else some (digitsVal run, l.drop run.length)

mutual

/-- Recursive-descent JSON value parser (model of the grammar accepted
by `json.loads`, numbers restricted to integers). -/
def parseJValue : Nat → List Char → Option (Jval × List Char)
  | 0, _ => none
  | fuel + 1, l =>
    match l.dropWhile isJsonWs with
    | [] => none
    | c :: rest =>
      if c = '"' then
        match parseJString (rest.length + 1) rest with
        | some (cs, r) => some (.jstr (String.mk cs), r)
        | none => none
      else if c = 't' then
        if ['r', 'u', 'e'].isPrefixOf rest then some (.jbool true, rest.drop 3) else none
      else if c = 'f' then
        if ['a', 'l', 's', 'e'].isPrefixOf rest then some (.jbool false, rest.drop 4) else none
      else if c = 'n' then
        if ['u', 'l', 'l'].isPrefixOf rest then some (.jnull, rest.drop 3) else none
      else if c = '-' then
        match parseDigits rest with
        | some (n, r) => some (.jnum (-(n : Int)), r)
        | none => none
      else if c.isDigit then
        match parseDigits (c :: rest) with
        | some (n, r) => some (.jnum (n : Int), r)
        | none => none
      else if c = '\x7b' then
        parseJObj fuel (rest.dropWhile isJsonWs) []
      else if c = '[' then
        parseJArr fuel (rest.dropWhile isJsonWs) []
      else none

/-- Parse the members of a JSON object after `{`. -/
def parseJObj (fuel : Nat) (l : List Char) (acc : List (String × Jval)) :
    Option (Jval × List Char) :=
  match fuel with
  | 0 => none
  | fuel + 1 =>
    match l with
    | [] => none
    | c :: rest =>
      if c = '\x7d' then
        if acc.isEmpty then some (.jobj [], rest) else none
      else if c = '"' then
        match parseJString (rest.length + 1) rest with
        | some (ks, r) =>
          match r.dropWhile isJsonWs with
          | ':' :: r2 =>
            match parseJValue fuel r2 with
            | some (v, r3) =>
              let acc := insertField acc (String.mk ks) v
              match r3.dropWhile isJsonWs with
              | ',' :: r4 => parseJObj fuel (r4.dropWhile isJsonWs) acc
              | '\x7d' :: r4 => some (.jobj acc, r4)
              | _ => none
            | none => none
          | _ => none
        | none => none
      else none

/-- Parse the elements of a JSON array after `[`. -/
def parseJArr (fuel : Nat) (l : List Char) (acc : List Jval) :
    Option (Jval × List Char) :=
  match fuel with
  | 0 => none
  | fuel + 1 =>
    match l with
    | [] => none
    | c :: rest =>
      if c = ']' then
        if acc.isEmpty then some (.jarr [], rest) else none
      else
        match parseJValue fuel (c :: rest) with
        | some (v, r) =>
          match r.dropWhile isJsonWs with
          | ',' :: r2 => parseJArr fuel r2 (acc ++ [v])
          | ']' :: r2 => some (.jarr (acc ++ [v]), r2)
          | _ => none
        | none => none

end

/-- Model of Python `json.loads text`: parse a single JSON document with
nothing but whitespace around it; `none` models `json.JSONDecodeError`. -/
def pyJsonLoads (text : String) : Option Jval :=
  match parseJValue (text.data.length + 1) text.data with
  | some (v, rest) => if (rest.dropWhile isJsonWs).isEmpty then some v else none
  | none => none

/-! ## `_safe_json` (query_planner.py lines 20-31) -/

/-- Drop characters up to (and keeping) the first opening brace. -/
def dropToBrace : List Char → Option (List Char)
  | [] => none
  | c :: rest => if c = '\x7b' then some (c :: rest) else dropToBrace rest

/-- Keep characters up to (and including) the last closing brace;
`none` when there is no closing brace at all. -/
def takeToLastClose : List Char → Option (List Char)
  | [] => none
  | c :: rest =>
    match takeToLastClose rest with
    | some p => some (c :: p)
    | none => if c = '\x7d' then some [c] else none

/-- Model of `re.search(r"\{[\s\S]*\}", text).group(0)`: the `*` is
greedy, so the match runs from the first opening brace of the text to
the last closing brace (and fails when no closing brace follows an
opening brace). -/
def greedyBrace (text : String) : Option String :=
  match dropToBrace text.data with
  | some suff =>
    match takeToLastClose suff with
    | some m => some (String.mk m)
    | none => none
  | none => none

/-- Model of `_safe_json`: try `json.loads` on the whole text; on
failure, run the greedy brace regex and retry on its match; on total
failure return `None`. -/
def safeJson (text : String) : Option Jval :=
  match pyJsonLoads text with
  | some v => some v
  | none =>
    match greedyBrace text with
    | some sub => pyJsonLoads sub
    | none => none

/-- Scan for the closing brace matching an already-seen opening brace,
tracking nesting depth. -/
def balancedFrom (depth : Nat) (acc : List Char) : List Char → Option (List Char)
  | [] => none
  | c :: rest =>
    if c = '\x7b' then balancedFrom (depth + 1) (acc ++ [c]) rest
    else if c = '\x7d' then
      match depth with
      | 0 => none
      | 1 => some (acc ++ [c])
      | d + 2 => balancedFrom (d + 1) (acc ++ [c]) rest
    else balancedFrom depth (acc ++ [c]) rest

/-- Modelled from the spec: the first balanced brace-delimited substring
of the text (the extraction step the spec describes for planner-output
parsing, which the source does not implement; used only to compare the
spec reading against `safeJson`). -/
def firstBalancedBrace (text : String) : Option String :=
  match dropToBrace text.data with
  | some (c :: rest) => (balancedFrom 1 [c] rest).map String.mk
  | _ => none

/-- Modelled from the spec: `_safe_json` as the spec describes it, with
the retry on the first *balanced* brace substring. -/
def safeJsonSpec (text : String) : Option Jval :=
  match pyJsonLoads text with
  | some v => some v
  | none =>
    match firstBalancedBrace text with
    | some sub => pyJsonLoads sub
    | none => none

/-! ## Personas, tools and the planner (query_planner.py, prompts.py) -/

/-- `INTERNAL_AGENT_CONFIG["tools_available"]` (prompts.py). -/
def internalWhitelist : List String :=
  ["query_employees", "get_employee_performance_stats",
   "query_storage_inventory", "get_low_stock_alerts",
   "query_recipes", "get_recipe_details",
   "query_daily_menu", "get_menu_item_details"]

/-- `EXTERNAL_AGENT_CONFIG["tools_available"]` (prompts.py). -/
def externalWhitelist : List String :=
  ["query_daily_menu", "get_menu_item_details"]

/-- Names of `ALL_TOOLS = DATABASE_TOOLS + AGENT_MEMORY_TOOLS`
(src/tools). -/
def allToolNames : List String :=
  ["query_employees", "get_employee_performance_stats",
   "query_storage_inventory", "get_low_stock_alerts",
   "query_recipes", "get_recipe_details",
   "query_daily_menu", "get_menu_item_details",
   "save_memory", "list_memories", "search_memory", "delete_memory"]

/-- `internal_tools` of `create_internal_chat_app`: the registered tools
whose name is in the internal whitelist. -/
def internalToolNames : List String :=
  allToolNames.filter (internalWhitelist.contains ·)

/-- `external_tools` of `create_external_chat_app`. -/
def externalToolNames : List String :=
  allToolNames.filter (externalWhitelist.contains ·)

/-- `_allowed_tools` (query_planner.py lines 34-37). -/
def allowedTools (user_type : String) : List String :=
  if user_type = "external" then externalWhitelist else internalWhitelist

/-- Message roles (`SystemMessage` / `HumanMessage` / `AIMessage` /
`ToolMessage`). -/
inductive Role where
  | system : Role
  | human : Role
  | ai : Role
  | tool : Role
  deriving Repr, DecidableEq

/-- A role-tagged chat message. -/
structure Msg where
  role : Role
  content : String
  deriving Repr, DecidableEq

/-- The language-model collaborator: a list of prompt messages in, one
assistant message text out; `.error e` models the call raising. -/
def LLMFun : Type :=
  List Msg → Except String String

/-- A validated plan (`Plan` dataclass of query_planner.py). -/
structure Plan where
  tool : String
  args : List (String × Jval)
  deriving Repr

/-- `dict.setdefault k v` on an argument map. -/
def setDefaultArg (fields : List (String × Jval)) (k : String) (v : Jval) :
    List (String × Jval) :=
  if (jlookup fields k).isSome then fields else fields ++ [(k, v)]

/-- System text of the intent classifier (`aclassify_intent`). -/
def classifierSysText : String :=
  "Classify the user message. If answering requires querying any restaurant database " ++
  "(employees, recipes, storage/inventory, daily menu), return db_query. " ++
  "If it can be answered conversationally without data lookup, return conversational.\n" ++
  "Return only one token: db_query or conversational."

/-- `aclassify_intent` (query_planner.py lines 86-97): one LLM call, the
reply lower-cased and trimmed; anything starting with `db_query` maps to
`db_query`, everything else to `conversational`. The LLM call is not
guarded, so a failing call propagates. -/
def aclassifyIntent (llm : LLMFun) (message : String)
    (user_type : String := "internal") : Except String String :=
  match llm [⟨.system, classifierSysText⟩, ⟨.human, message⟩] with
  | .error e => .error e
  | .ok content =>
    let out := pyLower (pyStrip content)
    .ok (if pyStartsWith out "db_query" || out = "db_query" then "db_query"
         else "conversational")

/-- Schema hint of `aplan_query` (query_planner.py lines 102-106). -/
def plannerSchemaHint (tools : List String) : String :=
  "Return strict JSON with keys: tool (one of: " ++ String.intercalate ", " tools ++
  ") and args (object).\n" ++
  "Do NOT include any \x27limit\x27 argument; fetch full results unless the user explicitly requests a sample or page.\n" ++
  "If information is missing (e.g., date/location), keep args minimal and avoid restrictive filters."

/-- System text of `aplan_query`. -/
def plannerSysText (tools : List String) : String :=
  "You are a restaurant CRM query planner. Map the user request to exactly one database tool and arguments.\n" ++
  plannerSchemaHint tools

/-- Post-parse handling of the planner output (query_planner.py lines
114-123, identical to the sync `plan_query` lines 72-82): a falsy parse
result (`None` or an empty object) yields no plan; `data.get` on a
truthy non-dict raises; a `tool` that is not a whitelisted string yields
no plan; a falsy `args` is replaced by the empty map before the dict
check, and a truthy non-dict `args` yields no plan; finally
`output_format` defaults to `"json"`. -/
def planFromData (tools : List String) (data : Jval) : Except String (Option Plan) :=
  if !jTruthy data then .ok none
  else
    match data with
    | .jobj fields =>
      let argsJ : Jval :=
        match jlookup fields "args" with
        | some a => if jTruthy a then a else .jobj []
        | none => .jobj []
      match jlookup fields "tool" with
      | some (.jstr t) =>
        if tools.contains t then
          match argsJ with
          | .jobj aF => .ok (some ⟨t, setDefaultArg aF "output_format" (.jstr "json")⟩)
          | _ => .ok none
        else .ok none
      | _ => .ok none
    | _ => .error "AttributeError: object has no attribute \x27get\x27"

/-- `aplan_query` (query_planner.py lines 100-123): one LLM call, parsed
with `_safe_json`, then validated by `planFromData`. The LLM call is not
guarded, so a failing call propagates. -/
def aplanQuery (llm : LLMFun) (message : String)
    (user_type : String := "internal") : Except String (Option Plan) :=
  let tools := allowedTools user_type
  match llm [⟨.system, plannerSysText tools⟩, ⟨.human, message⟩] with
  | .error e => .error e
  | .ok content =>
    match safeJson content with
    | none => .ok none
    | some data => planFromData tools data

/-! ## Memory store (memory/store.py)

The SQLite table is modelled as a list of records, most recent first;
`next` supplies both fresh ids (`uuid.uuid4()` in the source) and
strictly increasing timestamps (`datetime.now().isoformat()`), so that
`ORDER BY updated_at DESC` is the list order. -/

/-- One row of the `memories` table. -/
structure MemRecord where
  id : Nat
  thread_id : String
  content : String
  tags : List String
  importance : Nat
  source : String
  ts : Nat
  deriving Repr, DecidableEq

/-- The `memories` table plus the id/timestamp source. -/
structure MemoryStore where
  recs : List MemRecord
  next : Nat
  deriving Repr, DecidableEq

/-- A store with no rows. -/
def emptyStore : MemoryStore := ⟨[], 0⟩

/-- `MemoryStore.add_memory` (store.py lines 37-61): insert a row with a
fresh id and the current timestamp; returns the new id. -/
def addMemory (st : MemoryStore) (thread_id content : String) (tags : List String)
    (importance : Nat) (source : String) : MemoryStore × Nat :=
  (⟨⟨st.next, thread_id, content, tags, importance, source, st.next⟩ :: st.recs,
    st.next + 1⟩, st.next)

/-- `MemoryStore.list_memories` (store.py lines 63-82): rows of the
thread ordered by `updated_at` descending, limited. -/
def listMemories (st : MemoryStore) (thread_id : String) (limit : Nat := 50) :
    List MemRecord :=
  (st.recs.filter (fun r => r.thread_id = thread_id)).take limit

/-- `MemoryStore.search` (store.py lines 92-113): case-insensitive
substring match on content (`LOWER(content) LIKE %query.lower()%`),
ordered by `updated_at` descending, limited. -/
def searchMemories (st : MemoryStore) (thread_id query : String) (limit : Nat := 5) :
    List MemRecord :=
  (st.recs.filter
    (fun r => r.thread_id = thread_id && pyContains (pyLower r.content) (pyLower query))).take
    limit

/-! ## Regex scanning machinery

`re.search` is modelled by a left-to-right scan trying a per-position
matcher; the matchers implement the concrete patterns of
`NAME_PATTERNS`, `PREF_PATTERNS` and `_maybe_save_assistant_insights`
with greedy runs plus word-boundary backtracking. -/

/-- Case-insensitive match of a literal; returns the remaining input. -/
def litCI : List Char → List Char → Option (List Char)
  | [], l => some l
  | _ :: _, [] => none
  | p :: ps, c :: cs => if c.toLower = p.toLower then litCI ps cs else none

/-- `\s+`: at least one whitespace character, consumed greedily. -/
def ws1 : List Char → Option (List Char)
  | [] => none
  | c :: cs =>
    if c.isWhitespace then some (cs.dropWhile Char.isWhitespace) else none

/-- `\s*`: any whitespace, consumed greedily. -/
def wsMany (l : List Char) : List Char :=
  l.dropWhile Char.isWhitespace

/-- Word-boundary backtracking for a greedy capture followed by `\b`:
given the reversed candidate run and the input that follows it, drop
characters from the end of the run until the boundary between the last
kept character and the next character holds. -/
def backtrackRev : List Char → List Char → Option (List Char)
  | [], _ => none
  | c :: rs, rest =>
    let nextWord : Bool := match rest with | [] => false | d :: _ => isWordChar d
    if isWordChar c != nextWord then some ((c :: rs).reverse)
    else backtrackRev rs (c :: rest)

/-- Greedy capture of shape `[A-Za-z]P+\b` for a character class `P`:
head alphabetic, at least two characters, ending at a word boundary. -/
def grabCap (p : Char → Bool) (l : List Char) : Option (List Char) :=
  match l with
  | [] => none
  | c :: _ =>
    if c.isAlpha then
      let run := l.takeWhile p
      match backtrackRev run.reverse (l.drop run.length) with
      | some cap => if 2 ≤ cap.length then some cap else none
      | none => none
    else none

/-- Greedy capture of shape `[A-Za-z]P+` with no trailing boundary
(more pattern follows the group); returns the capture and the rest. -/
def grabNoB (p : Char → Bool) (l : List Char) : Option (List Char × List Char) :=
  match l with
  | [] => none
  | c :: _ =>
    if c.isAlpha then
      let run := l.takeWhile p
      if 2 ≤ run.length then some (run, l.drop run.length) else none
    else none

/-- `re.search` for a pattern whose first character is a word character
preceded by `\b`: try the matcher at every position that sits at a word
boundary, leftmost first.  The boolean tracks whether the previous
character was a non-word character (true at the start). -/
def searchB {α : Type} (pat : List Char → Option α) : Bool → List Char → Option α
  | _, [] => none
  | bnd, c :: rest =>
    match (if bnd then pat (c :: rest) else none) with
    | some r => some r
    | none => searchB pat (!isWordChar c) rest

/-- `re.search` for a pattern with no leading `\b`: try every position,
leftmost first. -/
def searchAny {α : Type} (pat : List Char → Option α) : List Char → Option α
  | [] => none
  | c :: rest =>
    match pat (c :: rest) with
    | some r => some r
    | none => searchAny pat rest

/-- First pattern of an ordered list to match anywhere in the input
(each pattern anchored at a word boundary), as in the source loops over
`NAME_PATTERNS` / `PREF_PATTERNS`. -/
def firstMatch {α : Type} : List (List Char → Option α) → List Char → Option α
  | [], _ => none
  | p :: ps, l =>
    match searchB p true l with
    | some r => some r
    | none => firstMatch ps l

/-! ## Name extraction (chat_agents.py lines 482-543) -/

/-- Capture `([A-Za-z][A-Za-z\-'’]+)\b`. -/
def nameAfter (l : List Char) : Option (List Char) :=
  grabCap isNameChar l

/-- `\bmy\s+name\s+is\s+(NAME)\b` -/
def patMyNameIs (l : List Char) : Option (List Char) := do
  let r ← litCI "my".data l
  let r ← ws1 r
  let r ← litCI "name".data r
  let r ← ws1 r
  let r ← litCI "is".data r
  let r ← ws1 r
  nameAfter r

/-- `\bi\s*am\s+(NAME)\b` -/
def patIAm (l : List Char) : Option (List Char) := do
  let r ← litCI "i".data l
  let r := wsMany r
  let r ← litCI "am".data r
  let r ← ws1 r
  nameAfter r

/-- `\bi['’]?m\s+(NAME)\b` -/
def patImApos (l : List Char) : Option (List Char) := do
  let r ← litCI "i".data l
  let r := match r with
    | c :: cs => if c = '\'' || c = '’' then cs else r
    | [] => r
  let r ← litCI "m".data r
  let r ← ws1 r
  nameAfter r

/-- `\bim\s+(NAME)\b` -/
def patIm (l : List Char) : Option (List Char) := do
  let r ← litCI "im".data l
  let r ← ws1 r
  nameAfter r

/-- `\bm\s+(NAME)\b` -/
def patM (l : List Char) : Option (List Char) := do
  let r ← litCI "m".data l
  let r ← ws1 r
  nameAfter r

/-- `\b(NAME)\s+is\s+my\s+name\b` -/
def patNameIsMyName (l : List Char) : Option (List Char) := do
  let (cap, rest) ← grabNoB isNameChar l
  let r ← ws1 rest
  let r ← litCI "is".data r
  let r ← ws1 r
  let r ← litCI "my".data r
  let r ← ws1 r
  let r ← litCI "name".data r
  match r with
  | [] => some cap
  | d :: _ => if isWordChar d then none else some cap

/-- `\bcall\s+me\s+(NAME)\b` -/
def patCallMe (l : List Char) : Option (List Char) := do
  let r ← litCI "call".data l
  let r ← ws1 r
  let r ← litCI "me".data r
  let r ← ws1 r
  nameAfter r

/-- `NAME_PATTERNS` (chat_agents.py lines 482-490), in source order. -/
def NAME_PATTERNS : List (List Char → Option (List Char)) :=
  [patMyNameIs, patIAm, patImApos, patIm, patM, patNameIsMyName, patCallMe]

/-- `NAME_STOP_WORDS` (chat_agents.py line 492). -/
def NAME_STOP_WORDS : List String :=
  ["what", "who", "where", "why", "how", "when"]

/-- Python `name[:1].upper() + name[1:]`. -/
def capitalizeFirst : List Char → List Char
  | [] => []
  | c :: cs => c.toUpper :: cs

/-- `_extract_user_name` (chat_agents.py lines 495-502): strip the text,
try the name patterns in order, return the first capture with its first
letter upper-cased. -/
def extractUserName (text : String) : Option String :=
  match firstMatch NAME_PATTERNS (pyStripL text.data) with
  | some cap => some (String.mk (capitalizeFirst (pyStripL cap)))
  | none => none

/-- Tag-and-content scan of `_get_known_name` over the listed records:
a record tagged `name` and `user_profile` yields the value after
`user_name:`, or failing that whatever `_extract_user_name` finds in
its content. -/
def knownFromRecs : List MemRecord → Option String
  | [] => none
  | r :: rest =>
    if r.tags.contains "name" && r.tags.contains "user_profile" then
      match
        (match pyPartitionColon r.content with
         | some (key, val) =>
           if pyStartsWith (pyLower (pyStrip key)) "user_name" then some (pyStrip val)
           else none
         | none => none) with
      | some v => some v
      | none =>
        match extractUserName r.content with
        | some nm => some nm
        | none => knownFromRecs rest
    else knownFromRecs rest

/-- `_get_known_name` (chat_agents.py lines 505-521). -/
def getKnownName (st : MemoryStore) (thread_id : String) : Option String :=
  knownFromRecs (listMemories st thread_id 50)

/-- `_maybe_save_user_name` (chat_agents.py lines 524-543): extract a
name; discard stop-word candidates (returning the known name); treat a
case-insensitive match with the known name as a no-op; otherwise store
`user_name:<name>` tagged `user_profile`/`name`. -/
def maybeSaveUserName (st : MemoryStore) (thread_id text : String) :
    MemoryStore × Option String :=
  match extractUserName text with
  | none => (st, none)
  | some name =>
    if NAME_STOP_WORDS.contains (pyLower name) then (st, getKnownName st thread_id)
    else
      match getKnownName st thread_id with
      | some known =>
        if known ≠ "" && pyLower known = pyLower name then (st, some known)
        else
          ((addMemory st thread_id ("user_name:" ++ name) ["user_profile", "name"] 3
            "agent").1, some name)
      | none =>
        ((addMemory st thread_id ("user_name:" ++ name) ["user_profile", "name"] 3
          "agent").1, some name)

/-! ## Preference extraction (chat_agents.py lines 606-685) -/

/-- Alternation `(vegan|vegetarian|gluten[-\s]?free)`: returns the
matched text as written and the rest of the input. -/
def dietAlt (l : List Char) : Option (List Char × List Char) :=
  match litCI "vegan".data l with
  | some r => some (l.take 5, r)
  | none =>
    match litCI "vegetarian".data l with
    | some r => some (l.take 10, r)
    | none =>
      match litCI "gluten".data l with
      | some r =>
        (match r with
         | c :: cs =>
           if c = '-' || c.isWhitespace then
             match litCI "free".data cs with
             | some r2 => some (l.take 11, r2)
             | none =>
               match litCI "free".data r with
               | some r2 => some (l.take 10, r2)
               | none => none
           else
             match litCI "free".data r with
             | some r2 => some (l.take 10, r2)
             | none => none
         | [] => none)
      | none => none

/-- Dietary alternation followed by `\b`. -/
def dietCapB (r : List Char) : Option (List Char) := do
  let (cap, rest) ← dietAlt r
  match rest with
  | [] => some cap
  | d :: _ => if isWordChar d then none else some cap

/-- Python `val.replace(" ", "_")`. -/
def spacesToUnderscores (s : String) : String :=
  String.mk (s.data.map (fun c => if c = ' ' then '_' else c))

/-- `\bremember\s+that\s+(.+)$` (the dot does not match newlines; the
anchor also matches just before one trailing newline). -/
def patRememberThat (l : List Char) : Option (String × String) := do
  let r ← litCI "remember".data l
  let r ← ws1 r
  let r ← litCI "that".data r
  let r ← ws1 r
  let run := r.takeWhile (fun c => c ≠ '\n')
  let rest := r.drop run.length
  if run.isEmpty then none
  else if rest.isEmpty || rest = ['\n'] then some ("note", pyStrip (String.mk run))
  else none

/-- `\bi\s+(?:really\s+)?like\s+([A-Za-z][\w\s\-]+)\b` -/
def patILike (l : List Char) : Option (String × String) := do
  let r ← litCI "i".data l
  let r ← ws1 r
  let r2 ←
    match (do
      let a ← litCI "really".data r
      let a ← ws1 a
      litCI "like".data a) with
    | some a => some a
    | none => litCI "like".data r
  let r2 ← ws1 r2
  let cap ← grabCap isPhraseChar r2
  some ("preference", pyStrip (String.mk cap))

/-- Alternation `(?:do\s+not|don't|dont)`. -/
def notAlt (r : List Char) : Option (List Char) :=
  match (do
    let a ← litCI "do".data r
    let a ← ws1 a
    litCI "not".data a) with
  | some a => some a
  | none =>
    match litCI "don\x27t".data r with
    | some a => some a
    | none => litCI "dont".data r

/-- `\bi\s+(?:do\s+not|don't|dont)\s+like\s+([A-Za-z][\w\s\-]+)\b` -/
def patIDontLike (l : List Char) : Option (String × String) := do
  let r ← litCI "i".data l
  let r ← ws1 r
  let r ← notAlt r
  let r ← ws1 r
  let r ← litCI "like".data r
  let r ← ws1 r
  let cap ← grabCap isPhraseChar r
  some ("dislike", pyStrip (String.mk cap))

/-- `\bi['’]?m\s+(vegan|vegetarian|gluten[-\s]?free)\b` -/
def patImDiet (l : List Char) : Option (String × String) := do
  let r ← litCI "i".data l
  let r := match r with
    | c :: cs => if c = '\'' || c = '’' then cs else r
    | [] => r
  let r ← litCI "m".data r
  let r ← ws1 r
  let cap ← dietCapB r
  some ("dietary", spacesToUnderscores (String.mk cap))

/-- `\bi\s+am\s+(vegan|vegetarian|gluten[-\s]?free)\b` -/
def patIAmDiet (l : List Char) : Option (String × String) := do
  let r ← litCI "i".data l
  let r ← ws1 r
  let r ← litCI "am".data r
  let r ← ws1 r
  let cap ← dietCapB r
  some ("dietary", spacesToUnderscores (String.mk cap))

/-- `\ballergic\s+to\s+([A-Za-z][\w\s\-]+)\b` -/
def patAllergicTo (l : List Char) : Option (String × String) := do
  let r ← litCI "allergic".data l
  let r ← ws1 r
  let r ← litCI "to".data r
  let r ← ws1 r
  let cap ← grabCap isPhraseChar r
  some ("allergy", pyStrip (String.mk cap))

/-- `PREF_PATTERNS` (chat_agents.py lines 607-614), in source order;
each entry already applies the value-normalising lambda. -/
def PREF_PATTERNS : List (List Char → Option (String × String)) :=
  [patRememberThat, patILike, patIDontLike, patImDiet, patIAmDiet, patAllergicTo]

/-- The first preference-family pattern matching the (already stripped)
text, with its extracted `(key, value)`. -/
def matchPref (t : String) : Option (String × String) :=
  firstMatch PREF_PATTERNS t.data

/-- `_maybe_save_preference` (chat_agents.py lines 617-635): store
`key:value` for the first matching pattern, tagged `user_profile` and
the key; no deduplication of any kind. -/
def maybeSavePreference (st : MemoryStore) (thread_id text : String) :
    MemoryStore × Option String :=
  match matchPref (pyStrip text) with
  | some (key, val) =>
    let content := key ++ ":" ++ val
    ((addMemory st thread_id content ["user_profile", key] 3 "agent").1, some content)
  | none => (st, none)

/-- Alternation `(?:like|love|prefer)`. -/
def likeLovePrefer (r : List Char) : Option (List Char) :=
  match litCI "like".data r with
  | some a => some a
  | none =>
    match litCI "love".data r with
    | some a => some a
    | none => litCI "prefer".data r

/-- `you\s+(?:really\s+)?(?:like|love|prefer)\s+([A-Za-z][\w\s\-]+)\b` -/
def insPrefer (l : List Char) : Option (List Char) := do
  let r ← litCI "you".data l
  let r ← ws1 r
  let r2 ←
    match (do
      let a ← litCI "really".data r
      let a ← ws1 a
      likeLovePrefer a) with
    | some a => some a
    | none => likeLovePrefer r
  let r2 ← ws1 r2
  grabCap isPhraseChar r2

/-- `you\s+(?:do\s+not|don't|dont)\s+like\s+([A-Za-z][\w\s\-]+)\b` -/
def insDislike (l : List Char) : Option (List Char) := do
  let r ← litCI "you".data l
  let r ← ws1 r
  let r ← notAlt r
  let r ← ws1 r
  let r ← litCI "like".data r
  let r ← ws1 r
  grabCap isPhraseChar r

/-- `you\s+are\s+(vegan|vegetarian|gluten[-\s]?free)\b` -/
def insDiet (l : List Char) : Option (List Char) := do
  let r ← litCI "you".data l
  let r ← ws1 r
  let r ← litCI "are".data r
  let r ← ws1 r
  dietCapB r

/-- `allergic\s+to\s+([A-Za-z][\w\s\-]+)\b` -/
def insAllergic (l : List Char) : Option (List Char) := do
  let r ← litCI "allergic".data l
  let r ← ws1 r
  let r ← litCI "to".data r
  let r ← ws1 r
  grabCap isPhraseChar r

/-- The assistant-insight patterns with their keys (chat_agents.py
lines 645-650), in source order. -/
def INSIGHT_PATTERNS : List ((List Char → Option (List Char)) × String) :=
  [(insPrefer, "preference"), (insDislike, "dislike"),
   (insDiet, "dietary"), (insAllergic, "allergy")]

/-- One pattern iteration of `_maybe_save_assistant_insights`: when the
pattern matches anywhere in the stripped text, store
`key:<stripped value with spaces replaced by underscores>` with source
`assistant`. -/
def insightStep (thread_id : String) (t : List Char) (acc : MemoryStore × List String)
    (pk : (List Char → Option (List Char)) × String) : MemoryStore × List String :=
  match searchAny pk.1 t with
  | some cap =>
    let content := pk.2 ++ ":" ++ spacesToUnderscores (pyStrip (String.mk cap))
    ((addMemory acc.1 thread_id content ["user_profile", pk.2] 3 "assistant").1,
     acc.2 ++ [content])
  | none => acc

/-- `_maybe_save_assistant_insights` (chat_agents.py lines 638-668):
every matching pattern (not only the first) stores its fact. -/
def maybeSaveAssistantInsights (st : MemoryStore) (thread_id text : String) :
    MemoryStore × List String :=
  INSIGHT_PATTERNS.foldl (insightStep thread_id (pyStripL text.data)) (st, [])

/-- `_postprocess_turn_memory` (chat_agents.py lines 671-685): persist
preference-family facts from the user text, then insight facts from the
assistant text (logging elided; its internal try/except never fires in
the model). -/
def postprocessTurnMemory (st : MemoryStore) (thread_id user_text assistant_text : String) :
    MemoryStore :=
  (maybeSaveAssistantInsights
    (maybeSavePreference st thread_id user_text).1 thread_id assistant_text).1

/-- `_build_memory_system_message` (chat_agents.py lines 546-603). -/
def buildMemoryNote (st : MemoryStore) (thread_id : String) (query_text : Option String) :
    Option String :=
  let items := listMemories st thread_id 50
  let name := getKnownName st thread_id
  let acc := items.foldl
    (fun (acc : List String × List String × List String × List String × List String) r =>
      let content := pyStrip r.content
      if content = "" then acc
      else
        let v := afterFirstColon content
        let (prefs, dislikes, dietary, allergy, notes) := acc
        if r.tags.contains "preference" then (prefs ++ [v], dislikes, dietary, allergy, notes)
        else if r.tags.contains "dislike" then (prefs, dislikes ++ [v], dietary, allergy, notes)
        else if r.tags.contains "dietary" then (prefs, dislikes, dietary ++ [v], allergy, notes)
        else if r.tags.contains "allergy" then (prefs, dislikes, dietary, allergy ++ [v], notes)
        else if r.tags.contains "note" then (prefs, dislikes, dietary, allergy, notes ++ [v])
        else acc)
    ([], [], [], [], [])
  let (prefs, dislikes, dietary, allergy, notes) := acc
  let relevant : List String :=
    match query_text with
    | some q =>
      if q = "" then [] else (searchMemories st thread_id q 3).map (fun r => r.content)
    | none => []
  let lines : List String :=
    (match name with
     | some n => if n = "" then [] else ["- Name: " ++ n]
     | none => []) ++
    (if dietary.isEmpty then []
     else ["- Dietary: " ++ String.intercalate ", " (sortedSet dietary)]) ++
    (if allergy.isEmpty then []
     else ["- Allergies: " ++ String.intercalate ", " (sortedSet allergy)]) ++
    (if prefs.isEmpty then []
     else ["- Likes: " ++ String.intercalate ", " (sortedSet prefs)]) ++
    (if dislikes.isEmpty then []
     else ["- Dislikes: " ++ String.intercalate ", " (sortedSet dislikes)]) ++
    (if notes.isEmpty then []
     else ["- Notes: " ++ String.intercalate ", " (notes.take 3)]) ++
    (if relevant.isEmpty then []
     else ["- Relevant memory: " ++ String.intercalate " | " relevant])
  if lines.isEmpty then none
  else
    some ("Known user profile:" ++ "\n" ++ String.intercalate "\n" lines ++
      "\n\nUse profile facts only when helpful to answer or personalize. " ++
      "Avoid repeating them gratuitously.")

/-! ## Conversation pipeline (chat_agents.py) -/

/-- `ChatState` (chat_agents.py lines 33-42). -/
structure ChatState where
  messages : List Msg
  user_type : String := "internal"
  summary : Option String := none
  memory : Option String := none
  intent : Option String := none
  plan : Option Plan := none
  tool_result : Option String := none
  clarify_question : Option String := none
  deriving Repr

/-- The external collaborators of one turn: the four LLM wrapper calls,
the tool registry behaviour, the `AI_SUGGESTIONS` environment value and
the checkpoint read.  `.error` models the collaborator raising. -/
structure Oracle where
  classifierLLM : LLMFun
  plannerLLM : LLMFun
  responderLLM : LLMFun
  summarizerLLM : LLMFun
  toolRun : String → List (String × Jval) → Except String String
  aiSuggestions : String := "on"
  priorState : Except String (Option (List Msg × Option String)) := .ok none

/-- `args.get(k) and str(args.get(k)).strip()` as a boolean: the value
exists, is truthy, and renders to a non-blank string. -/
def argTruthyNonempty (args : List (String × Jval)) (k : String) : Bool :=
  match jlookup args k with
  | some v => jTruthy v && pyStrip (jStr v) ≠ ""
  | none => false

/-- `any(args.get(k) for k in keys)`. -/
def anyArgTruthy (args : List (String × Jval)) (keys : List String) : Bool :=
  keys.any (fun k =>
    match jlookup args k with
    | some v => jTruthy v
    | none => false)

/-- Clarifying question for an unidentified menu item. -/
def menuDetailsQ : String :=
  "Which dish would you like details for? You can optionally specify a date (YYYY-MM-DD)."

/-- Clarifying question for an unidentified recipe. -/
def recipeDetailsQ : String :=
  "Which recipe would you like details for? You can specify the dish name."

/-- Clarifying question for an unfiltered daily-menu query (internal). -/
def dailyMenuQInternal : String :=
  "Do you have a date or location in mind for the daily menu (e.g., today at Downtown, or desserts)?"

/-- Clarifying question for an unfiltered daily-menu query (external). -/
def dailyMenuQExternal : String :=
  "Do you have a specific location, category, or price range for today\x27s menu?"

/-- `_clarify_for_plan` of `create_internal_chat_app` (lines 184-206). -/
def clarifyForPlanI : Option Plan → Option String
  | none => none
  | some p =>
    if p.tool = "" then none
    else if p.tool = "get_menu_item_details" && !argTruthyNonempty p.args "dish_name" then
      some menuDetailsQ
    else if p.tool = "get_recipe_details" &&
        !(argTruthyNonempty p.args "recipe_id" || argTruthyNonempty p.args "dish_name") then
      some recipeDetailsQ
    else if p.tool = "query_daily_menu" &&
        !anyArgTruthy p.args
          ["menu_date", "location", "category_filter", "price_range",
           "dietary_restrictions"] then
      some dailyMenuQInternal
    else none

/-- `_clarify_for_plan` of `create_external_chat_app` (lines 317-331):
no recipe rule, and a different daily-menu question. -/
def clarifyForPlanE : Option Plan → Option String
  | none => none
  | some p =>
    if p.tool = "" then none
    else if p.tool = "get_menu_item_details" && !argTruthyNonempty p.args "dish_name" then
      some menuDetailsQ
    else if p.tool = "query_daily_menu" &&
        !anyArgTruthy p.args
          ["menu_date", "location", "category_filter", "price_range",
           "dietary_restrictions"] then
      some dailyMenuQExternal
    else none

/-- One position of the salvage regex
`(?:for|about)\s+([A-Za-z0-9][^\n\r]+)$` (the anchor also matches just
before one trailing newline). -/
def forAboutAt (l : List Char) : Option (List Char) :=
  match (match litCI "for".data l with
         | some r => some r
         | none => litCI "about".data l) with
  | some r =>
    match ws1 r with
    | some r2 =>
      let body := if r2.getLast? = some '\n' then r2.dropLast else r2
      match body with
      | c :: _ :: _ =>
        if c.isAlphanum && body.all (fun d => d ≠ '\n' && d ≠ '\r') then some body
        else none
      | _ => none
    | none => none
  | none => none

/-- The salvage search of the internal planner node (lines 170-176):
leftmost match of `(?:for|about)\s+([A-Za-z0-9][^\n\r]+)$`, the capture
stripped of whitespace and then of the characters `.?!'" `. -/
def forAboutTail (text : String) : Option String :=
  match searchAny forAboutAt text.data with
  | some cap =>
    some (pyStripChars ['.', '?', '!', '\'', '"', ' '] (pyStrip (String.mk cap)))
  | none => none

/-- The planner-node heuristic (lines 163-178): when the plan is
`get_recipe_details` with no usable id or dish name, recover a dish
name from the trailing `for`/`about` clause of the user message. -/
def salvageRecipeArgs (last_human : String) (p : Plan) : Plan :=
  if p.tool = "get_recipe_details" &&
      !(argTruthyNonempty p.args "recipe_id" || argTruthyNonempty p.args "dish_name") then
    match forAboutTail last_human with
    | some guess =>
      if guess ≠ "" then { p with args := insertField p.args "dish_name" (.jstr guess) }
      else p
    | none => p
  else p

/-- `next((m.content for m in reversed(state.messages) if …), "")`. -/
def lastContentOfRole (role : Role) (ms : List Msg) : String :=
  match ms.reverse.find? (fun m => m.role = role) with
  | some m => m.content
  | none => ""

/-- `intent_node` of `create_internal_chat_app` (lines 151-156). -/
def intentNodeI (o : Oracle) (s : ChatState) : Except String ChatState :=
  match aclassifyIntent o.classifierLLM (lastContentOfRole .human s.messages) "internal" with
  | .ok it => .ok { s with intent := some it }
  | .error e => .error e

/-- `intent_node` of `create_external_chat_app` (lines 301-306). -/
def intentNodeE (o : Oracle) (s : ChatState) : Except String ChatState :=
  match aclassifyIntent o.classifierLLM (lastContentOfRole .human s.messages) "external" with
  | .ok it => .ok { s with intent := some it }
  | .error e => .error e

/-- `planner_node` of `create_internal_chat_app` (lines 158-182),
including the dish-name salvage heuristic. -/
def plannerNodeI (o : Oracle) (s : ChatState) : Except String ChatState :=
  match aplanQuery o.plannerLLM (lastContentOfRole .human s.messages) "internal" with
  | .error e => .error e
  | .ok none => .ok { s with plan := none }
  | .ok (some pl) =>
    .ok { s with plan := some (salvageRecipeArgs (lastContentOfRole .human s.messages) pl) }

/-- `planner_node` of `create_external_chat_app` (lines 308-315): no
salvage heuristic. -/
def plannerNodeE (o : Oracle) (s : ChatState) : Except String ChatState :=
  match aplanQuery o.plannerLLM (lastContentOfRole .human s.messages) "external" with
  | .error e => .error e
  | .ok none => .ok { s with plan := none }
  | .ok (some pl) => .ok { s with plan := some pl }

/-- `clarify_node` (lines 208-213 / 333-338), parameterised by the
persona clarification policy: append the clarifying question as an
assistant message and record it; a no-question plan leaves the state
unchanged. -/
def clarifyNode (clarify : Option Plan → Option String) (s : ChatState) : ChatState :=
  match clarify s.plan with
  | none => s
  | some q =>
    { s with messages := s.messages ++ [⟨.ai, q⟩], clarify_question := some q }

/-- `exec_node` (lines 215-234 / 340-357), parameterised by the persona
tool registry.  Total: a plan naming an unregistered tool and a tool
call that raises both become explanatory `tool_result` strings. -/
def execNode (tools : List String) (o : Oracle) (s : ChatState) : ChatState :=
  match s.plan with
  | none => { s with tool_result := none }
  | some p =>
    if !tools.contains p.tool then
      { s with tool_result := some ("Planner selected unknown tool: " ++ p.tool) }
    else
      match o.toolRun p.tool p.args with
      | .ok r => { s with tool_result := some r }
      | .error e => { s with tool_result := some ("Tool execution error: " ++ e) }

/-- `INTERNAL_AGENT_CONFIG["system_prompt"]` (prompts.py).  The prompt
wording is long persona prose with no bearing on the verified
properties; it is abbreviated to a marker here. -/
def internalSystemPrompt : String := "INTERNAL_CHAT_SYSTEM_PROMPT"

/-- `EXTERNAL_AGENT_CONFIG["system_prompt"]` (prompts.py), abbreviated
likewise. -/
def externalSystemPrompt : String := "EXTERNAL_CHAT_SYSTEM_PROMPT"

/-- The directive appended when `AI_SUGGESTIONS` is off (lines 81-85). -/
def suggestionsOffDirective : String :=
  "Follow-up suggestions are disabled for this session. Provide a concise direct answer only;" ++
  " do not include sections like \x27Next steps\x27 or \x27You might also like\x27."

/-- Prompt assembly shared by `internal_agent_node` and
`external_agent_node` (lines 48-130): system prompt, optional memory
note, optional summary banner, message history, optional tool-result
banner, optional suggestion-suppression directive. -/
def buildAgentPrompt (sysPrompt : String) (aiSuggestions : String) (s : ChatState) :
    List Msg :=
  [⟨.system, sysPrompt⟩] ++
  (match s.memory with
   | some m => if m = "" then [] else [⟨.system, m⟩]
   | none => []) ++
  (match s.summary with
   | some sm =>
     if sm = "" then [] else [⟨.system, "Conversation summary (for context):\n" ++ sm⟩]
   | none => []) ++
  s.messages ++
  (match s.tool_result with
   | some tr => if tr = "" then [] else [⟨.system, "Tool result:\n" ++ tr⟩]
   | none => []) ++
  (if ["0", "off", "no", "false"].contains (pyLower aiSuggestions) then
    [⟨.system, suggestionsOffDirective⟩]
   else [])

/-- `internal_agent_node` (lines 48-88): one unguarded responder LLM
call; the reply is appended to the history. -/
def agentNodeI (o : Oracle) (s : ChatState) : Except String ChatState :=
  match o.responderLLM (buildAgentPrompt internalSystemPrompt o.aiSuggestions s) with
  | .ok resp => .ok { s with messages := s.messages ++ [⟨.ai, resp⟩] }
  | .error e => .error e

/-- `external_agent_node` (lines 91-130). -/
def agentNodeE (o : Oracle) (s : ChatState) : Except String ChatState :=
  match o.responderLLM (buildAgentPrompt externalSystemPrompt o.aiSuggestions s) with
  | .ok resp => .ok { s with messages := s.messages ++ [⟨.ai, resp⟩] }
  | .error e => .error e

/-- Summarizer system text of the internal app (lines 250-253). -/
def summarizerSysTextI : String :=
  "You are a conversation summarizer. Update the running summary with the latest exchange.\n" ++
  "Keep it concise and factual. Include any decisions, preferences, or follow-ups."

/-- Summarizer system text of the external app (lines 371-374). -/
def summarizerSysTextE : String :=
  "You are a conversation summarizer. Update the running summary with the latest exchange.\n" ++
  "Be concise, include preferences or constraints relevant to dining."

/-- The summarizer prompt (lines 249-259). -/
def summarizerPrompt (sysText : String) (s : ChatState) : List Msg :=
  [⟨.system, sysText⟩,
   ⟨.human,
     "Previous summary:\n" ++ s.summary.getD "" ++
     "\n\nLatest exchange:\nUser: " ++ lastContentOfRole .human s.messages ++
     "\nAssistant: " ++ lastContentOfRole .ai s.messages ++
     "\n\nReturn the updated summary only."⟩]

/-- `summarize_node` (lines 242-264 / 365-385): one summarizer LLM call
inside try/except.  Total: on failure the previous summary is kept and
the node still succeeds. -/
def summarizeNode (sysText : String) (o : Oracle) (s : ChatState) : ChatState :=
  match o.summarizerLLM (summarizerPrompt sysText s) with
  | .ok u => { s with summary := some (pyStrip u) }
  | .error _ => { s with summary := s.summary }

/-- One turn of the internal graph (`create_internal_chat_app`, lines
144-290): `detect_intent` then, by `route_from_intent`, either the
responder directly, or the planner followed (by `route_from_planner`)
by the clarify node or by exec and the responder; every path ends in
`summarize`.  Returns the final state and the trace of executed nodes;
`.error` models an exception escaping a node and aborting the graph
invocation. -/
def runInternalTurn (o : Oracle) (s : ChatState) :
    Except String (ChatState × List String) :=
  match intentNodeI o s with
  | .error e => .error e
  | .ok s1 =>
    if s1.intent = some "db_query" then
      match plannerNodeI o s1 with
      | .error e => .error e
      | .ok s2 =>
        if (clarifyForPlanI s2.plan).isSome then
          .ok (summarizeNode summarizerSysTextI o (clarifyNode clarifyForPlanI s2),
               ["detect_intent", "planner", "clarify", "summarize"])
        else
          match agentNodeI o (execNode internalToolNames o s2) with
          | .error e => .error e
          | .ok s4 =>
            .ok (summarizeNode summarizerSysTextI o s4,
                 ["detect_intent", "planner", "exec", "agent", "summarize"])
    else
      match agentNodeI o s1 with
      | .error e => .error e
      | .ok s2 =>
        .ok (summarizeNode summarizerSysTextI o s2,
             ["detect_intent", "agent", "summarize"])

/-- One turn of the external graph (`create_external_chat_app`, lines
293-409), with the external clarification policy, tool registry and
responder. -/
def runExternalTurn (o : Oracle) (s : ChatState) :
    Except String (ChatState × List String) :=
  match intentNodeE o s with
  | .error e => .error e
  | .ok s1 =>
    if s1.intent = some "db_query" then
      match plannerNodeE o s1 with
      | .error e => .error e
      | .ok s2 =>
        if (clarifyForPlanE s2.plan).isSome then
          .ok (summarizeNode summarizerSysTextE o (clarifyNode clarifyForPlanE s2),
               ["detect_intent", "planner", "clarify", "summarize"])
        else
          match agentNodeE o (execNode externalToolNames o s2) with
          | .error e => .error e
          | .ok s4 =>
            .ok (summarizeNode summarizerSysTextE o s4,
                 ["detect_intent", "planner", "exec", "agent", "summarize"])
    else
      match agentNodeE o s1 with
      | .error e => .error e
      | .ok s2 =>
        .ok (summarizeNode summarizerSysTextE o s2,
             ["detect_intent", "agent", "summarize"])

/-! ## Turn entry points (chat_agents.py lines 691-805) -/

/-- `ensure_thread_id` (memory/__init__.py lines 118-119). -/
def ensureThreadId (thread_id : Option String) : String :=
  match thread_id with
  | some t => if t = "" then "default" else t
  | none => "default"

/-- `ensure_thread_id(thread_id or defaultKey)`. -/
def resolveThread (defaultKey : String) (thread_id : Option String) : String :=
  ensureThreadId (some (match thread_id with
    | some t => if t = "" then defaultKey else t
    | none => defaultKey))

/-- `result["messages"][-1].content`; `none` models the `IndexError` on
an empty history. -/
def finalTextOf (ms : List Msg) : Option String :=
  match ms.getLast? with
  | some m => some m.content
  | none => none

/-- Checkpoint recovery at turn entry (lines 699-710 / 761-771): the
stored summary and the last 20 stored messages; a retrieval failure
degrades to no summary and an empty history. -/
def priorSummaryHistory (o : Oracle) : Option String × List Msg :=
  match o.priorState with
  | .ok (some (msgs, sm)) => (sm, takeLast msgs 20)
  | .ok none => (none, [])
  | .error _ => (none, [])

/-- The store after the entry-point memory captures
(`_maybe_save_user_name` then `_maybe_save_preference`, lines 712-714). -/
def entryStore (st : MemoryStore) (tid message : String) : MemoryStore :=
  (maybeSavePreference (maybeSaveUserName st tid message).1 tid message).1

/-- The `ChatState` handed to `app.ainvoke` by `run_internal_chat_async`
(lines 722-732). -/
def internalInitState (o : Oracle) (message : String) (thread_id : Option String)
    (st : MemoryStore) : ChatState :=
  let tid := resolveThread "internal_staff_session" thread_id
  let (summary, history) := priorSummaryHistory o
  { messages := history ++ [⟨.human, message⟩]
    user_type := "internal"
    summary := summary
    memory := buildMemoryNote (entryStore st tid message) tid (some message) }

/-- The `ChatState` handed to `app.ainvoke` by `run_external_chat_async`
(lines 779-789). -/
def externalInitState (o : Oracle) (message : String) (thread_id : Option String)
    (st : MemoryStore) : ChatState :=
  let tid := resolveThread "customer_session" thread_id
  let (summary, history) := priorSummaryHistory o
  { messages := history ++ [⟨.human, message⟩]
    user_type := "external"
    summary := summary
    memory := buildMemoryNote (entryStore st tid message) tid (some message) }

/-- `run_internal_chat_async` (lines 691-744): capture memories from the
user message, build the initial state, invoke the graph, run the exit
memory pass, and return the final assistant text — or the apology
string when anything inside the guarded block raises.  The function is
total: it always returns a reply string and the final memory store. -/
def runInternalChatA (o : Oracle) (message : String) (thread_id : Option String)
    (st : MemoryStore) : String × MemoryStore :=
  let tid := resolveThread "internal_staff_session" thread_id
  let st2 := entryStore st tid message
  match runInternalTurn o (internalInitState o message thread_id st) with
  | .ok (s', _) =>
    match finalTextOf s'.messages with
    | some t => (t, postprocessTurnMemory st2 tid message t)
    | none => ("Sorry, I encountered an error: list index out of range", st2)
  | .error e => ("Sorry, I encountered an error: " ++ e, st2)

/-- `run_external_chat_async` (lines 753-801). -/
def runExternalChatA (o : Oracle) (message : String) (thread_id : Option String)
    (st : MemoryStore) : String × MemoryStore :=
  let tid := resolveThread "customer_session" thread_id
  let st2 := entryStore st tid message
  match runExternalTurn o (externalInitState o message thread_id st) with
  | .ok (s', _) =>
    match finalTextOf s'.messages with
    | some t => (t, postprocessTurnMemory st2 tid message t)
    | none => ("Sorry, I encountered an error: list index out of range", st2)
  | .error e => ("Sorry, I encountered an error: " ++ e, st2)

/-- Whether a JSON value is an object (Python `isinstance(x, dict)`). -/
def jIsObj : Jval → Bool
  | .jobj _ => true
  | _ => false

/-- Whether the parsed planner output names a whitelisted tool: the
`tool` member exists, is a string, and is in the persona whitelist. -/
def toolAllowed (tools : List String) (fields : List (String × Jval)) : Bool :=
  match jlookup fields "tool" with
  | some (.jstr t) => tools.contains t
  | _ => false

/-- Number of records of a thread with exactly the given content. -/
def countContent (st : MemoryStore) (tid content : String) : Nat :=
  (st.recs.filter (fun r => r.thread_id = tid && r.content = content)).length

/-- Well-formed store: every record id is below the freshness counter
(holds for every store built by `addMemory` from `emptyStore`). -/
def WFStore (st : MemoryStore) : Prop :=
  ∀ r ∈ st.recs, r.id < st.next

/-- Whether the internal turn completes normally for the given entry
inputs: the graph invocation succeeds and yields a final message. -/
def internalTurnOk (o : Oracle) (message : String) (thread_id : Option String)
    (st : MemoryStore) : Bool :=
  match runInternalTurn o (internalInitState o message thread_id st) with
  | .ok (s', _) => (finalTextOf s'.messages).isSome
  | .error _ => false

/-! ## Concrete fixtures used by witness theorems -/

/-- Fixture: an oracle whose planner plans an unidentified recipe
lookup. -/
def oClarifyW : Oracle :=
  { classifierLLM := fun _ => .ok "db_query"
    plannerLLM := fun _ => .ok "\x7b\"tool\": \"get_recipe_details\", \"args\": \x7b\x7d\x7d"
    responderLLM := fun _ => .ok "Hello!"
    summarizerLLM := fun _ => .ok "sum"
    toolRun := fun _ _ => .ok "rows" }

/-- Fixture: an oracle for a purely conversational turn. -/
def oConvW : Oracle :=
  { classifierLLM := fun _ => .ok "conversational"
    plannerLLM := fun _ => .ok "x"
    responderLLM := fun _ => .ok "Hello there!"
    summarizerLLM := fun _ => .ok "sum"
    toolRun := fun _ _ => .ok "rows" }

/-- Fixture: an oracle whose classifier LLM call fails. -/
def oClassFailW : Oracle :=
  { classifierLLM := fun _ => .error "boom"
    plannerLLM := fun _ => .error "boom"
    responderLLM := fun _ => .ok "Hello!"
    summarizerLLM := fun _ => .ok "sum"
    toolRun := fun _ _ => .ok "rows" }

/-- Fixture: an oracle whose summarizer LLM call fails. -/
def oSumFailW : Oracle :=
  { classifierLLM := fun _ => .ok "conversational"
    plannerLLM := fun _ => .ok "x"
    responderLLM := fun _ => .ok "Hello!"
    summarizerLLM := fun _ => .error "rate limited"
    toolRun := fun _ _ => .ok "rows" }

/-- Fixture: an oracle whose tool invocation raises. -/
def oToolFailW : Oracle :=
  { classifierLLM := fun _ => .ok "db_query"
    plannerLLM := fun _ => .ok "\x7b\"tool\": \"query_daily_menu\", \"args\": \x7b\"location\": \"Downtown\"\x7d\x7d"
    responderLLM := fun _ => .ok "Hello!"
    summarizerLLM := fun _ => .ok "sum"
    toolRun := fun _ _ => .error "boom" }

/-- Fixture: a one-message internal state asking for recipe details
with no dish named. -/
def sRecipeW : ChatState :=
  { messages := [⟨.human, "Show me the recipe details"⟩] }

/-- Fixture: a one-message greeting state. -/
def sHiW : ChatState :=
  { messages := [⟨.human, "hi"⟩] }

/-- Fixture: a state carrying a plan for a tool outside every registry. -/
def sUnknownPlanW : ChatState :=
  { messages := [⟨.human, "hi"⟩], plan := some ⟨"fly_to_moon", []⟩ }

/-- Fixture: a state carrying a filtered daily-menu plan. -/
def sMenuPlanW : ChatState :=
  { messages := [⟨.human, "menu at Downtown?"⟩],
    plan := some ⟨"query_daily_menu", [("location", .jstr "Downtown")]⟩ }

/-! ## Helper lemmas about the pipeline nodes -/

/-- Number of assistant messages in a history. -/
def countRole (role : Role) (ms : List Msg) : Nat :=
  (ms.filter (fun m => m.role = role)).length

/-- A single-dish lookup plan with no usable identifying argument (the
hypothesis of claim C1): `get_recipe_details` with neither a non-empty
`recipe_id` nor a non-empty `dish_name`, or `get_menu_item_details`
with no non-empty `dish_name`. -/
def underspecifiedLookup : Option Plan → Bool
  | none => false
  | some p =>
    (p.tool = "get_recipe_details" && !argTruthyNonempty p.args "recipe_id" &&
      !argTruthyNonempty p.args "dish_name") ||
    (p.tool = "get_menu_item_details" && !argTruthyNonempty p.args "dish_name")

theorem clarifyForPlanI_of_underspec {op : Option Plan}
    (h : underspecifiedLookup op = true) : ∃ q, clarifyForPlanI op = some q := by
  cases op with
  | none => simp [underspecifiedLookup] at h
  | some p =>
    simp only [underspecifiedLookup, Bool.or_eq_true, Bool.and_eq_true,
      Bool.not_eq_true', decide_eq_true_eq] at h
    rcases h with ⟨⟨ht, hid⟩, hname⟩ | ⟨ht, hname⟩
    · exact ⟨recipeDetailsQ, by simp [clarifyForPlanI, ht, hid, hname]⟩
    · exact ⟨menuDetailsQ, by simp [clarifyForPlanI, ht, hname]⟩

theorem clarifyForPlanI_isSome_of_underspec {op : Option Plan}
    (h : underspecifiedLookup op = true) : (clarifyForPlanI op).isSome = true := by
  obtain ⟨q, hq⟩ := clarifyForPlanI_of_underspec h
  simp [hq]

@[simp] theorem summarizeNode_messages (t : String) (o : Oracle) (s : ChatState) :
    (summarizeNode t o s).messages = s.messages := by
  unfold summarizeNode; cases o.summarizerLLM (summarizerPrompt t s) <;> rfl

@[simp] theorem summarizeNode_plan (t : String) (o : Oracle) (s : ChatState) :
    (summarizeNode t o s).plan = s.plan := by
  unfold summarizeNode; cases o.summarizerLLM (summarizerPrompt t s) <;> rfl

@[simp] theorem summarizeNode_clarify (t : String) (o : Oracle) (s : ChatState) :
    (summarizeNode t o s).clarify_question = s.clarify_question := by
  unfold summarizeNode; cases o.summarizerLLM (summarizerPrompt t s) <;> rfl

@[simp] theorem execNode_messages (tools : List String) (o : Oracle) (s : ChatState) :
    (execNode tools o s).messages = s.messages := by
  unfold execNode
  cases s.plan with
  | none => rfl
  | some p =>
    dsimp only
    split
    · rfl
    · cases o.toolRun p.tool p.args <;> rfl

@[simp] theorem execNode_plan (tools : List String) (o : Oracle) (s : ChatState) :
    (execNode tools o s).plan = s.plan := by
  unfold execNode
  cases s.plan with
  | none => rfl
  | some p =>
    dsimp only
    split
    · rfl
    · cases o.toolRun p.tool p.args <;> rfl

theorem clarifyNode_of_some {c : Option Plan → Option String} {s : ChatState} {q : String}
    (h : c s.plan = some q) :
    clarifyNode c s =
      { s with messages := s.messages ++ [⟨.ai, q⟩], clarify_question := some q } := by
  unfold clarifyNode; rw [h]

@[simp] theorem clarifyNode_plan (c : Option Plan → Option String) (s : ChatState) :
    (clarifyNode c s).plan = s.plan := by
  unfold clarifyNode; cases c s.plan <;> rfl

theorem intentNodeI_ok_shape {o : Oracle} {s s1 : ChatState}
    (h : intentNodeI o s = .ok s1) : ∃ it, s1 = { s with intent := some it } := by
  unfold intentNodeI at h
  cases hc : aclassifyIntent o.classifierLLM (lastContentOfRole .human s.messages) "internal" with
  | ok it =>
    rw [hc] at h
    injection h with h'
    exact ⟨it, h'.symm⟩
  | error e => rw [hc] at h; cases h

theorem intentNodeE_ok_shape {o : Oracle} {s s1 : ChatState}
    (h : intentNodeE o s = .ok s1) : ∃ it, s1 = { s with intent := some it } := by
  unfold intentNodeE at h
  cases hc : aclassifyIntent o.classifierLLM (lastContentOfRole .human s.messages) "external" with
  | ok it =>
    rw [hc] at h
    injection h with h'
    exact ⟨it, h'.symm⟩
  | error e => rw [hc] at h; cases h

theorem plannerNodeI_ok_shape {o : Oracle} {s s2 : ChatState}
    (h : plannerNodeI o s = .ok s2) : ∃ pl, s2 = { s with plan := pl } := by
  unfold plannerNodeI at h
  cases hc : aplanQuery o.plannerLLM (lastContentOfRole .human s.messages) "internal" with
  | ok pl =>
    rw [hc] at h
    cases pl with
    | none => exact ⟨none, by injection h with h'; exact h'.symm⟩
    | some p =>
      refine ⟨some (salvageRecipeArgs (lastContentOfRole .human s.messages) p), ?_⟩
      injection h with h'
      exact h'.symm
  | error e => rw [hc] at h; cases h

theorem plannerNodeE_ok_shape {o : Oracle} {s s2 : ChatState}
    (h : plannerNodeE o s = .ok s2) : ∃ pl, s2 = { s with plan := pl } := by
  unfold plannerNodeE at h
  cases hc : aplanQuery o.plannerLLM (lastContentOfRole .human s.messages) "external" with
  | ok pl =>
    rw [hc] at h
    cases pl with
    | none => exact ⟨none, by injection h with h'; exact h'.symm⟩
    | some p => exact ⟨some p, by injection h with h'; exact h'.symm⟩
  | error e => rw [hc] at h; cases h

theorem agentNodeI_ok_shape {o : Oracle} {s s' : ChatState}
    (h : agentNodeI o s = .ok s') :
    ∃ r, o.responderLLM (buildAgentPrompt internalSystemPrompt o.aiSuggestions s) = .ok r ∧
      s' = { s with messages := s.messages ++ [⟨.ai, r⟩] } := by
  unfold agentNodeI at h
  cases hc : o.responderLLM (buildAgentPrompt internalSystemPrompt o.aiSuggestions s) with
  | ok r =>
    rw [hc] at h
    injection h with h'
    exact ⟨r, rfl, h'.symm⟩
  | error e => rw [hc] at h; cases h

theorem agentNodeE_ok_shape {o : Oracle} {s s' : ChatState}
    (h : agentNodeE o s = .ok s') :
    ∃ r, o.responderLLM (buildAgentPrompt externalSystemPrompt o.aiSuggestions s) = .ok r ∧
      s' = { s with messages := s.messages ++ [⟨.ai, r⟩] } := by
  unfold agentNodeE at h
  cases hc : o.responderLLM (buildAgentPrompt externalSystemPrompt o.aiSuggestions s) with
  | ok r =>
    rw [hc] at h
    injection h with h'
    exact ⟨r, rfl, h'.symm⟩
  | error e => rw [hc] at h; cases h

theorem countRole_append_ai (ms : List Msg) (q : String) :
    countRole .ai (ms ++ [⟨.ai, q⟩]) = countRole .ai ms + 1 := by
  simp [countRole]

/-! ## Claim theorems -/

/-- C1: for every turn in which the planner produces a plan for a
single-dish lookup with no usable identifying argument
(`get_recipe_details` with neither a non-empty `recipe_id` nor a
non-empty `dish_name`, or `get_menu_item_details` with no non-empty
`dish_name`), the internal pipeline routes to the clarify node, the
assistant output appended for that turn is the clarifying question, and
the exec node is never invoked. -/
theorem clarify_precedes_exec (o : Oracle) (s s' : ChatState) (tr : List String)
    (hrun : runInternalTurn o s = .ok (s', tr))
    (hplanner : "planner" ∈ tr)
    (hund : underspecifiedLookup s'.plan = true) :
    "clarify" ∈ tr ∧ "exec" ∉ tr ∧
      ∃ q, clarifyForPlanI s'.plan = some q ∧ s'.clarify_question = some q ∧
        s'.messages = s.messages ++ [⟨.ai, q⟩] := by
  unfold runInternalTurn at hrun
  cases hIt : intentNodeI o s with
  | error e => rw [hIt] at hrun; cases hrun
  | ok s1 =>
    rw [hIt] at hrun
    dsimp only at hrun
    obtain ⟨it, hs1⟩ := intentNodeI_ok_shape hIt
    by_cases hint : s1.intent = some "db_query"
    · rw [if_pos hint] at hrun
      cases hPl : plannerNodeI o s1 with
      | error e => rw [hPl] at hrun; cases hrun
      | ok s2 =>
        rw [hPl] at hrun
        dsimp only at hrun
        obtain ⟨pl, hs2⟩ := plannerNodeI_ok_shape hPl
        by_cases hcl : (clarifyForPlanI s2.plan).isSome = true
        · rw [if_pos hcl] at hrun
          simp only [Except.ok.injEq, Prod.mk.injEq] at hrun
          obtain ⟨hs', htr⟩ := hrun
          subst htr
          obtain ⟨q, hq⟩ := Option.isSome_iff_exists.mp hcl
          refine ⟨by decide, by decide, q, ?_, ?_, ?_⟩
          · rw [← hs']
            simpa using hq
          · rw [← hs']
            rw [clarifyNode_of_some hq]
            simp
          · rw [← hs']
            rw [clarifyNode_of_some hq]
            simp [hs2, hs1]
        · rw [if_neg hcl] at hrun
          cases hAg : agentNodeI o (execNode internalToolNames o s2) with
          | error e => rw [hAg] at hrun; cases hrun
          | ok s4 =>
            rw [hAg] at hrun
            dsimp only at hrun
            simp only [Except.ok.injEq, Prod.mk.injEq] at hrun
            obtain ⟨hs', htr⟩ := hrun
            obtain ⟨r, _, hs4⟩ := agentNodeI_ok_shape hAg
            exfalso
            apply hcl
            apply clarifyForPlanI_isSome_of_underspec
            rw [← hs'] at hund
            simpa [hs4] using hund
    · rw [if_neg hint] at hrun
      cases hAg : agentNodeI o s1 with
      | error e => rw [hAg] at hrun; cases hrun
      | ok s2 =>
        rw [hAg] at hrun
        dsimp only at hrun
        simp only [Except.ok.injEq, Prod.mk.injEq] at hrun
        obtain ⟨hs', htr⟩ := hrun
        subst htr
        exact absurd hplanner (by decide)

/-- C2: every completed turn of the internal pipeline appends exactly
one assistant message to the history: the clarifying question when the
turn routes through the clarify node, the responder output otherwise. -/
theorem one_assistant_message_per_turn (o : Oracle) (s s' : ChatState) (tr : List String)
    (hrun : runInternalTurn o s = .ok (s', tr)) :
    countRole .ai s'.messages = countRole .ai s.messages + 1 ∧
      ((∃ q, "clarify" ∈ tr ∧ clarifyForPlanI s'.plan = some q ∧
          s'.clarify_question = some q ∧ s'.messages = s.messages ++ [⟨.ai, q⟩]) ∨
       (∃ pre r, "clarify" ∉ tr ∧
          o.responderLLM (buildAgentPrompt internalSystemPrompt o.aiSuggestions pre) = .ok r ∧
          s'.messages = s.messages ++ [⟨.ai, r⟩])) := by
  unfold runInternalTurn at hrun
  cases hIt : intentNodeI o s with
  | error e => rw [hIt] at hrun; cases hrun
  | ok s1 =>
    rw [hIt] at hrun
    dsimp only at hrun
    obtain ⟨it, hs1⟩ := intentNodeI_ok_shape hIt
    by_cases hint : s1.intent = some "db_query"
    · rw [if_pos hint] at hrun
      cases hPl : plannerNodeI o s1 with
      | error e => rw [hPl] at hrun; cases hrun
      | ok s2 =>
        rw [hPl] at hrun
        dsimp only at hrun
        obtain ⟨pl, hs2⟩ := plannerNodeI_ok_shape hPl
        by_cases hcl : (clarifyForPlanI s2.plan).isSome = true
        · rw [if_pos hcl] at hrun
          simp only [Except.ok.injEq, Prod.mk.injEq] at hrun
          obtain ⟨hs', htr⟩ := hrun
          subst htr
          obtain ⟨q, hq⟩ := Option.isSome_iff_exists.mp hcl
          have hmsgs : s'.messages = s.messages ++ [⟨.ai, q⟩] := by
            rw [← hs', clarifyNode_of_some hq]
            simp [hs2, hs1]
          refine ⟨by rw [hmsgs]; exact countRole_append_ai _ _, .inl ⟨q, by decide, ?_, ?_, hmsgs⟩⟩
          · rw [← hs']
            simpa using hq
          · rw [← hs', clarifyNode_of_some hq]
            simp
        · rw [if_neg hcl] at hrun
          cases hAg : agentNodeI o (execNode internalToolNames o s2) with
          | error e => rw [hAg] at hrun; cases hrun
          | ok s4 =>
            rw [hAg] at hrun
            dsimp only at hrun
            simp only [Except.ok.injEq, Prod.mk.injEq] at hrun
            obtain ⟨hs', htr⟩ := hrun
            subst htr
            obtain ⟨r, hr, hs4⟩ := agentNodeI_ok_shape hAg
            have hmsgs : s'.messages = s.messages ++ [⟨.ai, r⟩] := by
              rw [← hs']
              simp [hs4, hs2, hs1]
            exact ⟨by rw [hmsgs]; exact countRole_append_ai _ _,
              .inr ⟨_, r, by decide, hr, hmsgs⟩⟩
    · rw [if_neg hint] at hrun
      cases hAg : agentNodeI o s1 with
      | error e => rw [hAg] at hrun; cases hrun
      | ok s2 =>
        rw [hAg] at hrun
        dsimp only at hrun
        simp only [Except.ok.injEq, Prod.mk.injEq] at hrun
        obtain ⟨hs', htr⟩ := hrun
        subst htr
        obtain ⟨r, hr, hs2'⟩ := agentNodeI_ok_shape hAg
        have hmsgs : s'.messages = s.messages ++ [⟨.ai, r⟩] := by
          rw [← hs']
          simp [hs2', hs1]
        exact ⟨by rw [hmsgs]; exact countRole_append_ai _ _,
          .inr ⟨_, r, by decide, hr, hmsgs⟩⟩

/-- Witness for C1: a concrete turn planning `get_recipe_details` with
no identifying argument routes to clarify, answers with the clarifying
question, and never execs. -/
theorem clarify_precedes_exec_witness :
    ∃ s' tr, runInternalTurn oClarifyW sRecipeW = .ok (s', tr) ∧ "planner" ∈ tr ∧
      underspecifiedLookup s'.plan = true ∧
      ("clarify" ∈ tr ∧ "exec" ∉ tr ∧
        ∃ q, clarifyForPlanI s'.plan = some q ∧ s'.clarify_question = some q ∧
          s'.messages = sRecipeW.messages ++ [⟨.ai, q⟩]) := by
  refine ⟨_, _, rfl, ?_, ?_, ?_⟩
  · decide
  · decide
  · exact clarify_precedes_exec oClarifyW sRecipeW _ _ rfl (by decide) (by decide)

/-- Witness for C2 at a concrete conversational turn. -/
theorem one_assistant_message_per_turn_witness :
    ∃ s' tr, runInternalTurn oConvW sHiW = .ok (s', tr) ∧
      countRole .ai s'.messages = countRole .ai sHiW.messages + 1 := by
  refine ⟨_, _, rfl, ?_⟩
  exact (one_assistant_message_per_turn oConvW sHiW _ _ rfl).1

/-- The three possible node traces of a completed internal turn. -/
theorem runInternalTurn_trace_cases {o : Oracle} {s s' : ChatState} {tr : List String}
    (h : runInternalTurn o s = .ok (s', tr)) :
    tr = ["detect_intent", "agent", "summarize"] ∨
    tr = ["detect_intent", "planner", "clarify", "summarize"] ∨
    tr = ["detect_intent", "planner", "exec", "agent", "summarize"] := by
  unfold runInternalTurn at h
  cases hIt : intentNodeI o s with
  | error e => rw [hIt] at h; cases h
  | ok s1 =>
    rw [hIt] at h; dsimp only at h
    by_cases hint : s1.intent = some "db_query"
    · rw [if_pos hint] at h
      cases hPl : plannerNodeI o s1 with
      | error e => rw [hPl] at h; cases h
      | ok s2 =>
        rw [hPl] at h; dsimp only at h
        by_cases hcl : (clarifyForPlanI s2.plan).isSome = true
        · rw [if_pos hcl] at h
          simp only [Except.ok.injEq, Prod.mk.injEq] at h
          exact .inr (.inl h.2.symm)
        · rw [if_neg hcl] at h
          cases hAg : agentNodeI o (execNode internalToolNames o s2) with
          | error e => rw [hAg] at h; cases h
          | ok s4 =>
            rw [hAg] at h; dsimp only at h
            simp only [Except.ok.injEq, Prod.mk.injEq] at h
            exact .inr (.inr h.2.symm)
    · rw [if_neg hint] at h
      cases hAg : agentNodeI o s1 with
      | error e => rw [hAg] at h; cases h
      | ok s2 =>
        rw [hAg] at h; dsimp only at h
        simp only [Except.ok.injEq, Prod.mk.injEq] at h
        exact .inl h.2.symm

/-- The three possible node traces of a completed external turn. -/
theorem runExternalTurn_trace_cases {o : Oracle} {s s' : ChatState} {tr : List String}
    (h : runExternalTurn o s = .ok (s', tr)) :
    tr = ["detect_intent", "agent", "summarize"] ∨
    tr = ["detect_intent", "planner", "clarify", "summarize"] ∨
    tr = ["detect_intent", "planner", "exec", "agent", "summarize"] := by
  unfold runExternalTurn at h
  cases hIt : intentNodeE o s with
  | error e => rw [hIt] at h; cases h
  | ok s1 =>
    rw [hIt] at h; dsimp only at h
    by_cases hint : s1.intent = some "db_query"
    · rw [if_pos hint] at h
      cases hPl : plannerNodeE o s1 with
      | error e => rw [hPl] at h; cases h
      | ok s2 =>
        rw [hPl] at h; dsimp only at h
        by_cases hcl : (clarifyForPlanE s2.plan).isSome = true
        · rw [if_pos hcl] at h
          simp only [Except.ok.injEq, Prod.mk.injEq] at h
          exact .inr (.inl h.2.symm)
        · rw [if_neg hcl] at h
          cases hAg : agentNodeE o (execNode externalToolNames o s2) with
          | error e => rw [hAg] at h; cases h
          | ok s4 =>
            rw [hAg] at h; dsimp only at h
            simp only [Except.ok.injEq, Prod.mk.injEq] at h
            exact .inr (.inr h.2.symm)
    · rw [if_neg hint] at h
      cases hAg : agentNodeE o s1 with
      | error e => rw [hAg] at h; cases h
      | ok s2 =>
        rw [hAg] at h; dsimp only at h
        simp only [Except.ok.injEq, Prod.mk.injEq] at h
        exact .inl h.2.symm

/-- C3: the turn entry points never raise to their caller: both are
total functions, and for every oracle and input either the guarded
graph invocation completes and the reply is the final assistant text,
or the reply is the user-facing apology string built from the internal
error. -/
theorem entry_points_never_raise (o : Oracle) (message : String)
    (thread_id : Option String) (st : MemoryStore) :
    ((∃ s' tr t, runInternalTurn o (internalInitState o message thread_id st) = .ok (s', tr) ∧
        finalTextOf s'.messages = some t ∧ (runInternalChatA o message thread_id st).1 = t) ∨
      (∃ e, (runInternalChatA o message thread_id st).1 =
        "Sorry, I encountered an error: " ++ e)) ∧
    ((∃ s' tr t, runExternalTurn o (externalInitState o message thread_id st) = .ok (s', tr) ∧
        finalTextOf s'.messages = some t ∧ (runExternalChatA o message thread_id st).1 = t) ∨
      (∃ e, (runExternalChatA o message thread_id st).1 =
        "Sorry, I encountered an error: " ++ e)) := by
  constructor
  · cases hrun : runInternalTurn o (internalInitState o message thread_id st) with
    | error e =>
      right
      refine ⟨e, ?_⟩
      unfold runInternalChatA
      rw [hrun]
    | ok pr =>
      obtain ⟨s', tr⟩ := pr
      cases hft : finalTextOf s'.messages with
      | none =>
        right
        refine ⟨"list index out of range", ?_⟩
        unfold runInternalChatA
        rw [hrun]
        dsimp only
        rw [hft]
        rfl
      | some t =>
        left
        refine ⟨s', tr, t, rfl, hft, ?_⟩
        unfold runInternalChatA
        rw [hrun]
        dsimp only
        rw [hft]
  · cases hrun : runExternalTurn o (externalInitState o message thread_id st) with
    | error e =>
      right
      refine ⟨e, ?_⟩
      unfold runExternalChatA
      rw [hrun]
    | ok pr =>
      obtain ⟨s', tr⟩ := pr
      cases hft : finalTextOf s'.messages with
      | none =>
        right
        refine ⟨"list index out of range", ?_⟩
        unfold runExternalChatA
        rw [hrun]
        dsimp only
        rw [hft]
        rfl
      | some t =>
        left
        refine ⟨s', tr, t, rfl, hft, ?_⟩
        unfold runExternalChatA
        rw [hrun]
        dsimp only
        rw [hft]

/-- C4: the exec node never raises: with a plan present, a tool missing
from the persona registry yields the explanatory
`Planner selected unknown tool: …` string as `tool_result`, and a
raising tool yields `Tool execution error: …`; and in both pipelines a
completed turn that executed the exec node also reached the responder
(`agent`). -/
theorem exec_node_contains_failures :
    (∀ (tools : List String) (o : Oracle) (s : ChatState) (p : Plan), s.plan = some p →
      (tools.contains p.tool = false →
        (execNode tools o s).tool_result =
          some ("Planner selected unknown tool: " ++ p.tool)) ∧
      (∀ e, tools.contains p.tool = true → o.toolRun p.tool p.args = .error e →
        (execNode tools o s).tool_result = some ("Tool execution error: " ++ e))) ∧
    (∀ (o : Oracle) (s s' : ChatState) (tr : List String),
      runInternalTurn o s = .ok (s', tr) → "exec" ∈ tr → "agent" ∈ tr) ∧
    (∀ (o : Oracle) (s s' : ChatState) (tr : List String),
      runExternalTurn o s = .ok (s', tr) → "exec" ∈ tr → "agent" ∈ tr) := by
  refine ⟨?_, ?_, ?_⟩
  · intro tools o s p hplan
    constructor
    · intro hmem
      unfold execNode
      rw [hplan]
      dsimp only
      rw [if_pos (by simpa using hmem)]
    · intro e hmem htool
      unfold execNode
      rw [hplan]
      dsimp only
      rw [if_neg (by simpa using hmem), htool]
  · intro o s s' tr h
    rcases runInternalTurn_trace_cases h with h' | h' | h' <;> subst h' <;> decide
  · intro o s s' tr h
    rcases runExternalTurn_trace_cases h with h' | h' | h' <;> subst h' <;> decide

/-- Witness for C4: a plan naming an unregistered tool and a raising
tool call, at concrete states. -/
theorem exec_node_contains_failures_witness :
    (execNode internalToolNames oConvW sUnknownPlanW).tool_result =
      some ("Planner selected unknown tool: " ++ "fly_to_moon") ∧
    (execNode externalToolNames oToolFailW sMenuPlanW).tool_result =
      some ("Tool execution error: " ++ "boom") := by
  constructor
  · exact (exec_node_contains_failures.1 internalToolNames oConvW sUnknownPlanW
      ⟨"fly_to_moon", []⟩ rfl).1 (by decide)
  · exact (exec_node_contains_failures.1 externalToolNames oToolFailW sMenuPlanW
      ⟨"query_daily_menu", [("location", .jstr "Downtown")]⟩ rfl).2 "boom" (by decide) rfl

/-- C6: when the summarizer LLM call fails, the summarize node of
either pipeline returns the state unchanged — in particular the summary
after the node equals the summary before it — and the node is total, so
the turn does not fail. -/
theorem summarizer_failure_keeps_summary (o : Oracle) (s : ChatState) (e : String) :
    (o.summarizerLLM (summarizerPrompt summarizerSysTextI s) = .error e →
      summarizeNode summarizerSysTextI o s = s) ∧
    (o.summarizerLLM (summarizerPrompt summarizerSysTextE s) = .error e →
      summarizeNode summarizerSysTextE o s = s) := by
  constructor <;> intro h <;> unfold summarizeNode <;> rw [h]

/-- Witness for C6 at a concrete failing summarizer. -/
theorem summarizer_failure_keeps_summary_witness :
    summarizeNode summarizerSysTextI oSumFailW sHiW = sHiW :=
  (summarizer_failure_keeps_summary oSumFailW sHiW "rate limited").1 rfl

/-- Counterexample for C5: when the underlying LLM call raises, the
intent classifier does not degrade to the default intent
`conversational` and the planner does not degrade to "no plan" — both
propagate the raised error. -/
theorem classifier_planner_no_degrade_cex :
    aclassifyIntent (fun _ => .error "boom") "hi" "internal" = .error "boom" ∧
    aclassifyIntent (fun _ => .error "boom") "hi" "internal" ≠ .ok "conversational" ∧
    aplanQuery (fun _ => .error "boom") "hi" "internal" = .error "boom" ∧
    aplanQuery (fun _ => .error "boom") "hi" "internal" ≠ .ok none := by
  refine ⟨rfl, ?_, rfl, ?_⟩
  · intro h
    have hc : (Except.error "boom" : Except String String) = .ok "conversational" := by
      rw [← h]
      rfl
    cases hc
  · intro h
    have hc : (Except.error "boom" : Except String (Option Plan)) = .ok none := by
      rw [← h]
      rfl
    cases hc

/-- C5 amended: when the underlying LLM call fails, the classifier and
the planner do not catch it: the error propagates out of the component
(the turn fails), and it is the turn entry point that converts the
error into the user-facing apology reply. -/
theorem classifier_planner_error_propagates (e msg u : String)
    (o : Oracle) (thread_id : Option String) (st : MemoryStore)
    (hcl : ∀ ms, o.classifierLLM ms = .error e) :
    aclassifyIntent (fun _ => .error e) msg u = .error e ∧
    aplanQuery (fun _ => .error e) msg u = .error e ∧
    (runInternalChatA o msg thread_id st).1 = "Sorry, I encountered an error: " ++ e ∧
    (runExternalChatA o msg thread_id st).1 = "Sorry, I encountered an error: " ++ e := by
  have hIt : ∀ s, intentNodeI o s = .error e := by
    intro s
    unfold intentNodeI aclassifyIntent
    rw [hcl]
  have hItE : ∀ s, intentNodeE o s = .error e := by
    intro s
    unfold intentNodeE aclassifyIntent
    rw [hcl]
  have hTurnI : runInternalTurn o (internalInitState o msg thread_id st) = .error e := by
    unfold runInternalTurn
    rw [hIt]
  have hTurnE : runExternalTurn o (externalInitState o msg thread_id st) = .error e := by
    unfold runExternalTurn
    rw [hItE]
  refine ⟨rfl, rfl, ?_, ?_⟩
  · unfold runInternalChatA
    rw [hTurnI]
  · unfold runExternalChatA
    rw [hTurnE]

/-- Witness for the amended C5 at a concrete failing classifier. -/
theorem classifier_planner_error_propagates_witness :
    (runInternalChatA oClassFailW "hi" none emptyStore).1 =
      "Sorry, I encountered an error: " ++ "boom" :=
  (classifier_planner_error_propagates "boom" "hi" "internal" oClassFailW none emptyStore
    (fun _ => rfl)).2.2.1

theorem dropToBrace_of_no_brace_append {a : List Char} (h : '\x7b' ∉ a) (r : List Char) :
    dropToBrace (a ++ '\x7b' :: r) = some ('\x7b' :: r) := by
  induction a with
  | nil => simp [dropToBrace]
  | cons c cs ih =>
    have hc : c ≠ '\x7b' := fun hc => h (hc ▸ List.mem_cons_self c cs)
    simp only [List.cons_append, dropToBrace, if_neg hc]
    exact ih (fun hm => h (List.mem_cons_of_mem c hm))

theorem takeToLastClose_of_no_close {l : List Char} (h : '\x7d' ∉ l) :
    takeToLastClose l = none := by
  induction l with
  | nil => rfl
  | cons c cs ih =>
    have hc : c ≠ '\x7d' := fun hc => h (hc ▸ List.mem_cons_self c cs)
    have ih' := ih (fun hm => h (List.mem_cons_of_mem c hm))
    simp [takeToLastClose, ih', hc]

theorem takeToLastClose_append {b c : List Char} (h : '\x7d' ∉ c) :
    takeToLastClose (b ++ '\x7d' :: c) = some (b ++ ['\x7d']) := by
  induction b with
  | nil =>
    simp only [List.nil_append, takeToLastClose, takeToLastClose_of_no_close h]
    rfl
  | cons x xs ih =>
    simp only [List.cons_append, takeToLastClose, List.append_eq, ih]

/-- The greedy brace regex on a text shaped
`<no '{'> ++ "{" ++ body ++ "}" ++ <no '}'>` matches exactly
`"{" ++ body ++ "}"`. -/
theorem greedyBrace_shape (a b c : String)
    (ha : '\x7b' ∉ a.data) (hc : '\x7d' ∉ c.data) :
    greedyBrace (a ++ "\x7b" ++ b ++ "\x7d" ++ c) = some ("\x7b" ++ b ++ "\x7d") := by
  have hdata : (a ++ "\x7b" ++ b ++ "\x7d" ++ c).data
      = a.data ++ '\x7b' :: (b.data ++ '\x7d' :: c.data) := by
    simp [String.data_append]
  unfold greedyBrace
  rw [hdata, dropToBrace_of_no_brace_append ha]
  dsimp only
  have htl : takeToLastClose ('\x7b' :: (b.data ++ '\x7d' :: c.data))
      = some ('\x7b' :: (b.data ++ ['\x7d'])) := by
    have h := takeToLastClose_append (b := '\x7b' :: b.data) (c := c.data) hc
    simpa using h
  rw [htl]
  refine congrArg some (String.ext ?_)
  simp [String.data_append]

/-- Counterexample for C9: on a text whose first *balanced* brace
substring parses as JSON, `_safe_json` still returns no parse, because
the retry runs on the greedy span from the first `{` to the *last* `}`
of the text, which is not valid JSON here. -/
theorem safe_json_not_first_balanced_cex :
    safeJson "\x7b\"a\": 1\x7d and \x7b\"b\": 2\x7d" = none ∧
    safeJsonSpec "\x7b\"a\": 1\x7d and \x7b\"b\": 2\x7d" = some (.jobj [("a", .jnum 1)]) :=
  ⟨rfl, rfl⟩

/-- C9 amended: planner parsing first attempts `json.loads` on the whole
text; if that fails, it retries on the substring running from the first
opening brace to the last closing brace of the text (the greedy regex
match) — not the first balanced substring — and when that also fails
(or no such span exists) it returns no parse, so the planner returns no
plan. -/
theorem safe_json_amended :
    (∀ t v, pyJsonLoads t = some v → safeJson t = some v) ∧
    (∀ a b c, '\x7b' ∉ a.data → '\x7d' ∉ c.data →
      pyJsonLoads (a ++ "\x7b" ++ b ++ "\x7d" ++ c) = none →
      safeJson (a ++ "\x7b" ++ b ++ "\x7d" ++ c) = pyJsonLoads ("\x7b" ++ b ++ "\x7d")) ∧
    (∀ t s, pyJsonLoads t = none → greedyBrace t = some s → safeJson t = pyJsonLoads s) ∧
    (∀ t, pyJsonLoads t = none → greedyBrace t = none → safeJson t = none) := by
  refine ⟨?_, ?_, ?_, ?_⟩
  · intro t v h
    unfold safeJson
    rw [h]
  · intro a b c ha hc hfail
    unfold safeJson
    rw [hfail, greedyBrace_shape a b c ha hc]
  · intro t s h hg
    unfold safeJson
    rw [h, hg]
  · intro t h hg
    unfold safeJson
    rw [h, hg]

/-- Witness for the amended C9 at a concrete text. -/
theorem safe_json_amended_witness :
    safeJson ("noise " ++ "\x7b" ++ "\"k\": 1" ++ "\x7d" ++ " tail")
      = pyJsonLoads ("\x7b" ++ "\"k\": 1" ++ "\x7d") :=
  safe_json_amended.2.1 "noise " "\"k\": 1" " tail" (by decide) (by decide) rfl

/-- Counterexample for C8: a parsed planner output whose `args` is a
non-dict — the (falsy) empty list — is not rejected: the planner
returns a plan; moreover the default-inserted argument value is
`"json"`, not `"structured"`. -/
theorem plan_validation_cex :
    aplanQuery (fun _ => .ok "\x7b\"tool\": \"query_daily_menu\", \"args\": []\x7d") "m"
        "internal" =
      .ok (some ⟨"query_daily_menu", [("output_format", .jstr "json")]⟩) ∧
    Jval.jstr "json" ≠ Jval.jstr "structured" := by
  refine ⟨rfl, ?_⟩
  intro h
  injection h with h'
  exact absurd h' (by decide)

/-- C8 amended: post-parse validation returns no plan when the parse
result is falsy (no parse, or an empty object), when the chosen `tool`
is not a whitelisted string, or when `args` is a *truthy* non-dict; a
missing or falsy `args` is first replaced by the empty dict rather than
rejected; and when the args dict lacks an `output_format` key, the
planner default-inserts `output_format="json"` (a structured format,
but the literal value is `"json"`, not `"structured"`) before returning
the plan. -/
theorem plan_validation_amended (tools : List String) :
    (∀ data, jTruthy data = false → planFromData tools data = .ok none) ∧
    (∀ fields, toolAllowed tools fields = false →
      planFromData tools (.jobj fields) = .ok none) ∧
    (∀ fields t args, jlookup fields "tool" = some (.jstr t) → tools.contains t = true →
      jlookup fields "args" = some args → jTruthy args = true → jIsObj args = false →
      planFromData tools (.jobj fields) = .ok none) ∧
    (∀ fields t, jlookup fields "tool" = some (.jstr t) → tools.contains t = true →
      (jlookup fields "args" = none ∨
        ∃ a, jlookup fields "args" = some a ∧ jTruthy a = false) →
      planFromData tools (.jobj fields) =
        .ok (some ⟨t, [("output_format", .jstr "json")]⟩)) ∧
    (∀ fields t aF, jlookup fields "tool" = some (.jstr t) → tools.contains t = true →
      jlookup fields "args" = some (.jobj aF) → jTruthy (.jobj aF) = true →
      planFromData tools (.jobj fields) =
        .ok (some ⟨t, setDefaultArg aF "output_format" (.jstr "json")⟩)) ∧
    (∀ aF, jlookup aF "output_format" = none →
      setDefaultArg aF "output_format" (.jstr "json") =
        aF ++ [("output_format", .jstr "json")]) ∧
    (∀ aF v, jlookup aF "output_format" = some v →
      setDefaultArg aF "output_format" (.jstr "json") = aF) := by
  have truthy_of_lookup : ∀ (fields : List (String × Jval)) (k : String) (v : Jval),
      jlookup fields k = some v → jTruthy (.jobj fields) = true := by
    intro fields k v hl
    cases fields with
    | nil => simp [jlookup] at hl
    | cons x xs => rfl
  refine ⟨?_, ?_, ?_, ?_, ?_, ?_, ?_⟩
  · intro data h
    unfold planFromData
    rw [if_pos (by simp [h])]
  · intro fields htool
    unfold planFromData
    by_cases hft : jTruthy (.jobj fields) = true
    · rw [if_neg (by simp [hft])]
      dsimp only
      unfold toolAllowed at htool
      cases hl : jlookup fields "tool" with
      | none => rfl
      | some v =>
        cases v with
        | jstr t =>
          rw [hl] at htool
          dsimp only at htool ⊢
          rw [if_neg (by simpa using htool)]
        | jnull => rfl
        | jbool b => rfl
        | jnum n => rfl
        | jarr l => rfl
        | jobj l => rfl
    · rw [if_pos (by simpa using hft)]
  · intro fields t args hl hcont hargs htruthy hnotobj
    unfold planFromData
    rw [if_neg (by simp [truthy_of_lookup fields "tool" _ hl])]
    dsimp only
    rw [hl]
    dsimp only
    rw [if_pos hcont, hargs]
    dsimp only
    rw [if_pos htruthy]
    cases args with
    | jnull => rfl
    | jbool b => rfl
    | jnum n => rfl
    | jstr s => rfl
    | jarr l => rfl
    | jobj l => simp [jIsObj] at hnotobj
  · intro fields t hl hcont hargs
    unfold planFromData
    rw [if_neg (by simp [truthy_of_lookup fields "tool" _ hl])]
    dsimp only
    rw [hl]
    dsimp only
    rw [if_pos hcont]
    rcases hargs with hnone | ⟨a, ha, hfa⟩
    · rw [hnone]
      rfl
    · rw [ha]
      dsimp only
      rw [if_neg (by simp [hfa])]
      rfl
  · intro fields t aF hl hcont hargs htruthy
    unfold planFromData
    rw [if_neg (by simp [truthy_of_lookup fields "tool" _ hl])]
    dsimp only
    rw [hl]
    dsimp only
    rw [if_pos hcont, hargs]
    dsimp only
    rw [if_pos htruthy]
  · intro aF h
    unfold setDefaultArg
    rw [h]
    rfl
  · intro aF v h
    unfold setDefaultArg
    rw [h]
    rfl

/-- Witness for the amended C8 at concrete parsed outputs. -/
theorem plan_validation_amended_witness :
    planFromData internalWhitelist (.jobj [("tool", .jstr "fly_to_moon")]) = .ok none ∧
    planFromData internalWhitelist
      (.jobj [("tool", .jstr "query_recipes"), ("args", .jarr [.jnum 1])]) = .ok none ∧
    planFromData internalWhitelist
      (.jobj [("tool", .jstr "query_recipes"), ("args", .jarr [])]) =
      .ok (some ⟨"query_recipes", [("output_format", .jstr "json")]⟩) := by
  refine ⟨?_, ?_, ?_⟩
  · exact (plan_validation_amended internalWhitelist).2.1 _ (by decide)
  · exact (plan_validation_amended internalWhitelist).2.2.1 _ "query_recipes" (.jarr [.jnum 1])
      rfl (by decide) rfl rfl rfl
  · exact (plan_validation_amended internalWhitelist).2.2.2.1 _ "query_recipes" rfl (by decide)
      (.inr ⟨.jarr [], rfl, rfl⟩)

/-! ## Character-class lemmas for the name-extraction proofs -/

theorem alpha_not_ws {c : Char} (h : c.isAlpha = true) : c.isWhitespace = false := by
  by_contra hc
  rw [Bool.not_eq_false] at hc
  unfold Char.isWhitespace at hc
  simp only [Bool.or_eq_true, decide_eq_true_eq] at hc
  rcases hc with ((h1 | h1) | h1) | h1 <;> subst h1 <;> exact absurd h (by decide)

theorem alpha_ne_colon {c : Char} (h : c.isAlpha = true) : c ≠ ':' := by
  intro hc
  subst hc
  exact absurd h (by decide)

theorem nameChar_not_ws {c : Char} (h : isNameChar c = true) : c.isWhitespace = false := by
  unfold isNameChar at h
  simp only [Bool.or_eq_true, decide_eq_true_eq] at h
  rcases h with ((h1 | h1) | h1) | h1
  · exact alpha_not_ws h1
  · subst h1; decide
  · subst h1; decide
  · subst h1; decide

theorem nameChar_ne_colon {c : Char} (h : isNameChar c = true) : c ≠ ':' := by
  unfold isNameChar at h
  simp only [Bool.or_eq_true, decide_eq_true_eq] at h
  rcases h with ((h1 | h1) | h1) | h1
  · exact alpha_ne_colon h1
  · subst h1; decide
  · subst h1; decide
  · subst h1; decide

theorem toNat_ofNat_small {n : Nat} (h : n < 55296) : (Char.ofNat n).toNat = n := by
  have hv : n.isValidChar := Or.inl h
  rw [Char.ofNat, dif_pos hv]
  rfl

theorem toUpper_not_ws {c : Char} (h : isNameChar c = true) :
    (Char.toUpper c).isWhitespace = false := by
  unfold Char.toUpper
  by_cases hr : c.toNat ≥ 97 ∧ c.toNat ≤ 122
  · rw [if_pos hr]
    have ht : (Char.ofNat (c.toNat - 32)).toNat = c.toNat - 32 :=
      toNat_ofNat_small (by omega)
    by_contra hw
    rw [Bool.not_eq_false] at hw
    unfold Char.isWhitespace at hw
    simp only [Bool.or_eq_true, decide_eq_true_eq] at hw
    rcases hw with ((h1 | h1) | h1) | h1
    · rw [h1, show (' ' : Char).toNat = 32 from rfl] at ht; omega
    · rw [h1, show ('\t' : Char).toNat = 9 from rfl] at ht; omega
    · rw [h1, show ('\r' : Char).toNat = 13 from rfl] at ht; omega
    · rw [h1, show ('\n' : Char).toNat = 10 from rfl] at ht; omega
  · rw [if_neg hr]
    exact nameChar_not_ws h

theorem toUpper_ne_colon {c : Char} (h : isNameChar c = true) : Char.toUpper c ≠ ':' := by
  unfold Char.toUpper
  by_cases hr : c.toNat ≥ 97 ∧ c.toNat ≤ 122
  · rw [if_pos hr]
    intro h1
    have ht : (Char.ofNat (c.toNat - 32)).toNat = c.toNat - 32 :=
      toNat_ofNat_small (by omega)
    rw [h1, show (':' : Char).toNat = 58 from rfl] at ht
    omega
  · rw [if_neg hr]
    exact nameChar_ne_colon h

/-! ## Strip and partition lemmas -/

theorem dropWhile_eq_self_of_false {p : Char → Bool} {l : List Char}
    (h : ∀ c ∈ l, p c = false) : l.dropWhile p = l := by
  cases l with
  | nil => rfl
  | cons c cs =>
    rw [List.dropWhile_cons, if_neg (by simp [h c (List.mem_cons_self c cs)])]

theorem pyStripL_eq_self_of_no_ws {l : List Char}
    (h : ∀ c ∈ l, c.isWhitespace = false) : pyStripL l = l := by
  unfold pyStripL
  rw [dropWhile_eq_self_of_false h,
    dropWhile_eq_self_of_false (fun c hc => h c (List.mem_reverse.mp hc)),
    List.reverse_reverse]

theorem pyStrip_eq_self_of_no_ws {s : String}
    (h : ∀ c ∈ s.data, c.isWhitespace = false) : pyStrip s = s := by
  unfold pyStrip
  rw [pyStripL_eq_self_of_no_ws h]

theorem splitAtChar_append {sep : Char} {pre post : List Char} (h : sep ∉ pre) :
    splitAtChar sep (pre ++ sep :: post) = some (pre, post) := by
  induction pre with
  | nil => simp [splitAtChar]
  | cons c cs ih =>
    have hc : c ≠ sep := fun hc => h (hc ▸ List.mem_cons_self c cs)
    have ih' := ih (fun hm => h (List.mem_cons_of_mem c hm))
    simp only [List.cons_append, splitAtChar, List.append_eq, if_neg (by simpa using hc), ih']

theorem pyLower_length (s : String) : (pyLower s).data.length = s.data.length := by
  simp [pyLower]

theorem pyLower_ne_empty {s : String} (h : s.data ≠ []) : pyLower s ≠ "" := by
  intro hc
  have := pyLower_length s
  rw [hc] at this
  simp at this
  exact h (List.eq_nil_of_length_eq_zero this.symm)

/-! ## Capture-shape lemmas -/

theorem backtrackRev_mem {rl rest cap : List Char} (h : backtrackRev rl rest = some cap) :
    ∀ c ∈ cap, c ∈ rl := by
  induction rl generalizing rest with
  | nil => simp [backtrackRev] at h
  | cons x xs ih =>
    unfold backtrackRev at h
    dsimp only at h
    split at h
    · injection h with h'
      subst h'
      intro c hc
      simpa using List.mem_reverse.mp hc
    · intro c hc
      exact List.mem_cons_of_mem x (ih h c hc)

theorem backtrackRev_ne_nil {rl rest cap : List Char} (h : backtrackRev rl rest = some cap) :
    cap ≠ [] := by
  induction rl generalizing rest with
  | nil => simp [backtrackRev] at h
  | cons x xs ih =>
    unfold backtrackRev at h
    dsimp only at h
    split at h
    · injection h with h'
      subst h'
      simp
    · exact ih h

theorem backtrackRev_head {rl rest cap : List Char} (h : backtrackRev rl rest = some cap) :
    cap.head? = rl.getLast? := by
  induction rl generalizing rest with
  | nil => simp [backtrackRev] at h
  | cons x xs ih =>
    unfold backtrackRev at h
    dsimp only at h
    split at h
    · injection h with h'
      subst h'
      exact List.head?_reverse (x :: xs)
    · have hxs : xs ≠ [] := by
        intro hn
        subst hn
        simp [backtrackRev] at h
      rw [ih h]
      cases xs with
      | nil => exact absurd rfl hxs
      | cons y ys => simp [List.getLast?]

/-- Specification of the greedy `[A-Za-z]P+\b` capture: the result is
non-empty, starts with the alphabetic head of the scanned input, all
its characters satisfy the class, and it has length at least two. -/
theorem grabCap_spec {p : Char → Bool} {l cap : List Char} (h : grabCap p l = some cap) :
    ∃ c0 cs, cap = c0 :: cs ∧ c0.isAlpha = true ∧ (∀ c ∈ cap, p c = true) ∧
      2 ≤ cap.length := by
  unfold grabCap at h
  cases l with
  | nil => cases h
  | cons c t =>
    dsimp only at h
    by_cases hca : c.isAlpha = true
    · rw [if_pos hca] at h
      cases hb : backtrackRev ((c :: t).takeWhile p).reverse
          ((c :: t).drop ((c :: t).takeWhile p).length) with
      | none => rw [hb] at h; cases h
      | some cap0 =>
        rw [hb] at h
        dsimp only at h
        by_cases hlen : 2 ≤ cap0.length
        · rw [if_pos hlen] at h
          injection h with h'
          rw [h'] at hb hlen
          have hmem : ∀ x ∈ cap, p x = true := by
            intro x hx
            have hx' := backtrackRev_mem hb x hx
            exact List.mem_takeWhile_imp (List.mem_reverse.mp hx')
          have hne : cap ≠ [] := backtrackRev_ne_nil hb
          have hpc : p c = true := by
            cases hpc : p c with
            | true => rfl
            | false =>
              exfalso
              have : (c :: t).takeWhile p = [] := by
                rw [List.takeWhile_cons, if_neg (by simp [hpc])]
              rw [this] at hb
              simp [backtrackRev] at hb
          have hhead : cap.head? = some c := by
            rw [backtrackRev_head hb, List.getLast?_reverse]
            rw [List.takeWhile_cons, if_pos hpc]
            rfl
          cases cap with
          | nil => exact absurd rfl hne
          | cons c0 cs =>
            simp only [List.head?_cons, Option.some.injEq] at hhead
            exact ⟨c0, cs, rfl, by rw [hhead]; exact hca, hmem, hlen⟩
        · rw [if_neg hlen] at h
          cases h
    · rw [if_neg hca] at h
      cases h

/-- Specification of the boundary-free `[A-Za-z]P+` capture. -/
theorem grabNoB_spec {p : Char → Bool} {l cap rest : List Char}
    (h : grabNoB p l = some (cap, rest)) :
    ∃ c0 cs, cap = c0 :: cs ∧ c0.isAlpha = true ∧ (∀ c ∈ cap, p c = true) ∧
      2 ≤ cap.length := by
  unfold grabNoB at h
  cases l with
  | nil => cases h
  | cons c t =>
    dsimp only at h
    by_cases hca : c.isAlpha = true
    · rw [if_pos hca] at h
      by_cases hlen : 2 ≤ ((c :: t).takeWhile p).length
      · rw [if_pos hlen] at h
        injection h with h'
        have hcap0 : (c :: t).takeWhile p = cap := congrArg Prod.fst h'
        have hpc : p c = true := by
          cases hpc : p c with
          | true => rfl
          | false =>
            exfalso
            rw [List.takeWhile_cons, if_neg (by simp [hpc])] at hlen
            simp at hlen
        refine ⟨c, t.takeWhile p, ?_, hca, ?_, ?_⟩
        · rw [← hcap0, List.takeWhile_cons, if_pos hpc]
        · intro x hx
          rw [← hcap0] at hx
          exact List.mem_takeWhile_imp hx
        · rw [← hcap0]
          exact hlen
      · rw [if_neg hlen] at h
        cases h
    · rw [if_neg hca] at h
      cases h

theorem patMyNameIs_spec {l cap : List Char} (h : patMyNameIs l = some cap) :
    ∃ c0 cs, cap = c0 :: cs ∧ c0.isAlpha = true ∧ (∀ c ∈ cap, isNameChar c = true) ∧
      2 ≤ cap.length := by
  unfold patMyNameIs nameAfter at h
  simp only [Option.bind_eq_bind, Option.bind_eq_some] at h
  obtain ⟨a1, -, a2, -, a3, -, a4, -, a5, -, a6, -, hg⟩ := h
  exact grabCap_spec hg

theorem patIAm_spec {l cap : List Char} (h : patIAm l = some cap) :
    ∃ c0 cs, cap = c0 :: cs ∧ c0.isAlpha = true ∧ (∀ c ∈ cap, isNameChar c = true) ∧
      2 ≤ cap.length := by
  unfold patIAm nameAfter at h
  simp only [Option.bind_eq_bind, Option.bind_eq_some] at h
  obtain ⟨a1, -, a2, -, a3, -, hg⟩ := h
  exact grabCap_spec hg

theorem patImApos_spec {l cap : List Char} (h : patImApos l = some cap) :
    ∃ c0 cs, cap = c0 :: cs ∧ c0.isAlpha = true ∧ (∀ c ∈ cap, isNameChar c = true) ∧
      2 ≤ cap.length := by
  unfold patImApos nameAfter at h
  simp only [Option.bind_eq_bind, Option.bind_eq_some] at h
  obtain ⟨a1, -, a2, -, a3, -, hg⟩ := h
  exact grabCap_spec hg

theorem patIm_spec {l cap : List Char} (h : patIm l = some cap) :
    ∃ c0 cs, cap = c0 :: cs ∧ c0.isAlpha = true ∧ (∀ c ∈ cap, isNameChar c = true) ∧
      2 ≤ cap.length := by
  unfold patIm nameAfter at h
  simp only [Option.bind_eq_bind, Option.bind_eq_some] at h
  obtain ⟨a1, -, a2, -, hg⟩ := h
  exact grabCap_spec hg

theorem patM_spec {l cap : List Char} (h : patM l = some cap) :
    ∃ c0 cs, cap = c0 :: cs ∧ c0.isAlpha = true ∧ (∀ c ∈ cap, isNameChar c = true) ∧
      2 ≤ cap.length := by
  unfold patM nameAfter at h
  simp only [Option.bind_eq_bind, Option.bind_eq_some] at h
  obtain ⟨a1, -, a2, -, hg⟩ := h
  exact grabCap_spec hg

theorem patNameIsMyName_spec {l cap : List Char} (h : patNameIsMyName l = some cap) :
    ∃ c0 cs, cap = c0 :: cs ∧ c0.isAlpha = true ∧ (∀ c ∈ cap, isNameChar c = true) ∧
      2 ≤ cap.length := by
  unfold patNameIsMyName at h
  simp only [Option.bind_eq_bind, Option.bind_eq_some] at h
  obtain ⟨⟨cap0, rest⟩, hg, h2⟩ := h
  simp only [Option.bind_eq_bind, Option.bind_eq_some] at h2
  obtain ⟨b1, -, b2, -, b3, -, b4, -, b5, -, b6, -, hfin⟩ := h2
  have hcap : cap0 = cap := by
    cases b6 with
    | nil =>
      dsimp only at hfin
      injection hfin
    | cons d ds =>
      dsimp only at hfin
      by_cases hd : isWordChar d = true
      · rw [if_pos hd] at hfin
        cases hfin
      · rw [if_neg hd] at hfin
        injection hfin
  rw [← hcap]
  exact grabNoB_spec hg

theorem patCallMe_spec {l cap : List Char} (h : patCallMe l = some cap) :
    ∃ c0 cs, cap = c0 :: cs ∧ c0.isAlpha = true ∧ (∀ c ∈ cap, isNameChar c = true) ∧
      2 ≤ cap.length := by
  unfold patCallMe nameAfter at h
  simp only [Option.bind_eq_bind, Option.bind_eq_some] at h
  obtain ⟨a1, -, a2, -, a3, -, a4, -, hg⟩ := h
  exact grabCap_spec hg

theorem searchB_exists {α : Type} {pat : List Char → Option α} {b : Bool} {l : List Char}
    {r : α} (h : searchB pat b l = some r) : ∃ l', pat l' = some r := by
  induction l generalizing b with
  | nil => simp [searchB] at h
  | cons c cs ih =>
    unfold searchB at h
    by_cases hb : b = true
    · rw [if_pos hb] at h
      cases hp : pat (c :: cs) with
      | some x =>
        rw [hp] at h
        injection h with h'
        exact ⟨c :: cs, h' ▸ hp⟩
      | none =>
        rw [hp] at h
        exact ih h
    · rw [if_neg hb] at h
      exact ih h

/-- Every successfully extracted user name is non-empty and all of its
characters are non-whitespace and distinct from the colon. -/
theorem extractUserName_clean {text n : String} (h : extractUserName text = some n) :
    n.data ≠ [] ∧ ∀ c ∈ n.data, c.isWhitespace = false ∧ c ≠ ':' := by
  unfold extractUserName at h
  have hcap : ∃ cap, firstMatch NAME_PATTERNS (pyStripL text.data) = some cap ∧
      n = String.mk (capitalizeFirst (pyStripL cap)) := by
    cases hf : firstMatch NAME_PATTERNS (pyStripL text.data) with
    | some cap =>
      rw [hf] at h
      injection h with h'
      exact ⟨cap, rfl, h'.symm⟩
    | none => rw [hf] at h; cases h
  obtain ⟨cap, hf, hn⟩ := hcap
  have hspec : ∃ c0 cs, cap = c0 :: cs ∧ c0.isAlpha = true ∧
      (∀ c ∈ cap, isNameChar c = true) ∧ 2 ≤ cap.length := by
    unfold NAME_PATTERNS at hf
    simp only [firstMatch] at hf
    cases h1 : searchB patMyNameIs true (pyStripL text.data) with
    | some r =>
      rw [h1] at hf
      dsimp only at hf
      injection hf with hf'
      obtain ⟨l', hl'⟩ := searchB_exists h1
      exact patMyNameIs_spec (hf' ▸ hl')
    | none =>
    rw [h1] at hf
    dsimp only at hf
    cases h2 : searchB patIAm true (pyStripL text.data) with
    | some r =>
      rw [h2] at hf
      dsimp only at hf
      injection hf with hf'
      obtain ⟨l', hl'⟩ := searchB_exists h2
      exact patIAm_spec (hf' ▸ hl')
    | none =>
    rw [h2] at hf
    dsimp only at hf
    cases h3 : searchB patImApos true (pyStripL text.data) with
    | some r =>
      rw [h3] at hf
      dsimp only at hf
      injection hf with hf'
      obtain ⟨l', hl'⟩ := searchB_exists h3
      exact patImApos_spec (hf' ▸ hl')
    | none =>
    rw [h3] at hf
    dsimp only at hf
    cases h4 : searchB patIm true (pyStripL text.data) with
    | some r =>
      rw [h4] at hf
      dsimp only at hf
      injection hf with hf'
      obtain ⟨l', hl'⟩ := searchB_exists h4
      exact patIm_spec (hf' ▸ hl')
    | none =>
    rw [h4] at hf
    dsimp only at hf
    cases h5 : searchB patM true (pyStripL text.data) with
    | some r =>
      rw [h5] at hf
      dsimp only at hf
      injection hf with hf'
      obtain ⟨l', hl'⟩ := searchB_exists h5
      exact patM_spec (hf' ▸ hl')
    | none =>
    rw [h5] at hf
    dsimp only at hf
    cases h6 : searchB patNameIsMyName true (pyStripL text.data) with
    | some r =>
      rw [h6] at hf
      dsimp only at hf
      injection hf with hf'
      obtain ⟨l', hl'⟩ := searchB_exists h6
      exact patNameIsMyName_spec (hf' ▸ hl')
    | none =>
    rw [h6] at hf
    dsimp only at hf
    cases h7 : searchB patCallMe true (pyStripL text.data) with
    | some r =>
      rw [h7] at hf
      dsimp only at hf
      injection hf with hf'
      obtain ⟨l', hl'⟩ := searchB_exists h7
      exact patCallMe_spec (hf' ▸ hl')
    | none =>
      rw [h7] at hf
      dsimp only at hf
      cases hf
  obtain ⟨c0, cs, hshape, halpha, hmem, hlen⟩ := hspec
  have hstrip : pyStripL cap = cap :=
    pyStripL_eq_self_of_no_ws (fun c hc => nameChar_not_ws (hmem c hc))
  rw [hstrip] at hn
  subst hn
  rw [hshape]
  constructor
  · simp [capitalizeFirst]
  · intro c hc
    simp only [capitalizeFirst, String.data] at hc
    rcases List.mem_cons.mp hc with hc | hc
    · subst hc
      have hnc : isNameChar c0 = true := hmem c0 (hshape ▸ List.mem_cons_self c0 cs)
      exact ⟨toUpper_not_ws hnc, toUpper_ne_colon hnc⟩
    · have hnc : isNameChar c = true := hmem c (hshape ▸ List.mem_cons_of_mem c0 hc)
      exact ⟨nameChar_not_ws hnc, nameChar_ne_colon hnc⟩

theorem pyPartitionColon_user_name (n : String) (h : ∀ c ∈ n.data, c ≠ ':') :
    pyPartitionColon ("user_name:" ++ n) = some ("user_name", n) := by
  unfold pyPartitionColon
  have hdata : ("user_name:" ++ n).data = "user_name".data ++ ':' :: n.data := by
    rw [String.data_append]
    rfl
  rw [hdata, splitAtChar_append (by decide)]

theorem knownFromRecs_user_name_head (n : String) (r : MemRecord) (rest : List MemRecord)
    (hcontent : r.content = "user_name:" ++ n)
    (htags : r.tags = ["user_profile", "name"])
    (hclean : ∀ c ∈ n.data, c.isWhitespace = false ∧ c ≠ ':') :
    knownFromRecs (r :: rest) = some n := by
  unfold knownFromRecs
  rw [htags, hcontent]
  rw [if_pos (by decide)]
  rw [pyPartitionColon_user_name n (fun c hc => (hclean c hc).2)]
  dsimp only
  rw [if_pos (by decide)]
  dsimp only
  rw [pyStrip_eq_self_of_no_ws (fun c hc => (hclean c hc).1)]

theorem getKnownName_after_save (st : MemoryStore) (tid n : String)
    (hclean : ∀ c ∈ n.data, c.isWhitespace = false ∧ c ≠ ':') :
    getKnownName
      ((addMemory st tid ("user_name:" ++ n) ["user_profile", "name"] 3 "agent").1) tid
      = some n := by
  unfold getKnownName listMemories addMemory
  dsimp only
  rw [List.filter_cons_of_pos (by simp)]
  rw [show (50 : Nat) = 49 + 1 from rfl, List.take_succ_cons]
  exact knownFromRecs_user_name_head n _ _ rfl rfl hclean

/-- A case-insensitive match with the known name makes the save a
no-op returning the known name (both through the stop-word branch and
through the dedup branch). -/
theorem maybeSaveUserName_noop (st : MemoryStore) (tid text n k : String)
    (hext : extractUserName text = some n)
    (hk : getKnownName st tid = some k) (hlow : pyLower k = pyLower n) :
    maybeSaveUserName st tid text = (st, some k) := by
  obtain ⟨hne, hclean⟩ := extractUserName_clean hext
  have hkne : k ≠ "" := by
    intro hk0
    subst hk0
    exact pyLower_ne_empty hne (by rw [← hlow]; rfl)
  unfold maybeSaveUserName
  rw [hext]
  dsimp only
  by_cases hstop : NAME_STOP_WORDS.contains (pyLower n) = true
  · rw [if_pos hstop, hk]
  · rw [if_neg hstop, hk]
    dsimp only
    rw [if_pos (by simp [hkne, hlow])]

/-- When the extracted name is not a stop word and does not
case-insensitively match the known name, the save adds a
`user_name:<name>` record and returns the name. -/
theorem maybeSaveUserName_save (st : MemoryStore) (tid text n : String)
    (hext : extractUserName text = some n)
    (hstop : NAME_STOP_WORDS.contains (pyLower n) = false)
    (hnok : ∀ k, getKnownName st tid = some k → k ≠ "" → pyLower k ≠ pyLower n) :
    maybeSaveUserName st tid text =
      ((addMemory st tid ("user_name:" ++ n) ["user_profile", "name"] 3 "agent").1,
       some n) := by
  unfold maybeSaveUserName
  rw [hext]
  dsimp only
  rw [if_neg (by simpa using hstop)]
  cases hkn : getKnownName st tid with
  | none => rfl
  | some k0 =>
    dsimp only
    rw [if_neg ?hcond]
    case hcond =>
      simp only [Bool.and_eq_true, decide_eq_true_eq, ne_eq, not_and]
      intro hkne hlow
      exact hnok k0 hkn (by simpa using hkne) hlow

/-- C7: name extraction into the memory store is idempotent up to case:
an utterance whose extracted name case-insensitively equals the already
known name for the thread adds no record — the save is a no-op
returning the known name — and saving the same self-identification
utterance twice leaves the store after the first save unchanged, again
returning a name that case-insensitively equals the extracted one. -/
theorem name_save_idempotent (st : MemoryStore) (tid text n : String)
    (hext : extractUserName text = some n) :
    (∀ k, getKnownName st tid = some k → pyLower k = pyLower n →
      maybeSaveUserName st tid text = (st, some k)) ∧
    (NAME_STOP_WORDS.contains (pyLower n) = false →
      ∃ k, maybeSaveUserName (maybeSaveUserName st tid text).1 tid text =
          ((maybeSaveUserName st tid text).1, some k) ∧ pyLower k = pyLower n) := by
  obtain ⟨hne, hclean⟩ := extractUserName_clean hext
  constructor
  · intro k hk hlow
    exact maybeSaveUserName_noop st tid text n k hext hk hlow
  · intro hstop
    by_cases hdup : ∃ k, getKnownName st tid = some k ∧ k ≠ "" ∧ pyLower k = pyLower n
    · obtain ⟨k, hk, hkne, hlow⟩ := hdup
      have hfirst : maybeSaveUserName st tid text = (st, some k) :=
        maybeSaveUserName_noop st tid text n k hext hk hlow
      refine ⟨k, ?_, hlow⟩
      rw [hfirst]
      exact maybeSaveUserName_noop st tid text n k hext hk hlow
    · have hnok : ∀ k, getKnownName st tid = some k → k ≠ "" → pyLower k ≠ pyLower n := by
        intro k hk hkne hlow
        exact hdup ⟨k, hk, hkne, hlow⟩
      have hfirst := maybeSaveUserName_save st tid text n hext hstop hnok
      refine ⟨n, ?_, rfl⟩
      rw [hfirst]
      exact maybeSaveUserName_noop _ tid text n n hext
        (getKnownName_after_save st tid n hclean) rfl

/-- Fixture-based witness for C7: a store already knowing the name
`Ana`, and the utterance `my name is ana`. -/
theorem name_save_idempotent_witness :
    extractUserName "my name is ana" = some "Ana" ∧
    getKnownName
      ((addMemory emptyStore "t1" ("user_name:" ++ "Ana") ["user_profile", "name"] 3
        "agent").1) "t1" = some "Ana" ∧
    maybeSaveUserName
      ((addMemory emptyStore "t1" ("user_name:" ++ "Ana") ["user_profile", "name"] 3
        "agent").1) "t1" "my name is ana" =
      (((addMemory emptyStore "t1" ("user_name:" ++ "Ana") ["user_profile", "name"] 3
        "agent").1), some "Ana") := by
  refine ⟨rfl, rfl, ?_⟩
  exact (name_save_idempotent _ "t1" "my name is ana" "Ana" rfl).1 "Ana" rfl rfl

/-! ## Store-accounting lemmas for C10 -/

theorem countContent_addMemory_le (st : MemoryStore) (tid c tid' c' src : String)
    (tags : List String) (imp : Nat) :
    countContent st tid c ≤ countContent (addMemory st tid' c' tags imp src).1 tid c := by
  unfold countContent addMemory
  dsimp only
  rw [List.filter_cons]
  split <;> simp

theorem countContent_addMemory_same (st : MemoryStore) (tid c src : String)
    (tags : List String) (imp : Nat) :
    countContent (addMemory st tid c tags imp src).1 tid c = countContent st tid c + 1 := by
  unfold countContent addMemory
  dsimp only
  rw [List.filter_cons_of_pos (by simp)]
  rfl

theorem addMemory_mem (st : MemoryStore) (tid c src : String) (tags : List String)
    (imp : Nat) : ∀ r ∈ st.recs, r ∈ ((addMemory st tid c tags imp src).1).recs := by
  intro r hr
  exact List.mem_cons_of_mem _ hr

theorem addMemory_next (st : MemoryStore) (tid c src : String) (tags : List String)
    (imp : Nat) : ((addMemory st tid c tags imp src).1).next = st.next + 1 := rfl

theorem maybeSaveUserName_next_le (st : MemoryStore) (tid text : String) :
    st.next ≤ ((maybeSaveUserName st tid text).1).next := by
  unfold maybeSaveUserName
  cases extractUserName text with
  | none => exact Nat.le_refl _
  | some name =>
    dsimp only
    split
    · exact Nat.le_refl _
    · cases getKnownName st tid with
      | none => exact Nat.le_succ _
      | some known =>
        dsimp only
        split
        · exact Nat.le_refl _
        · exact Nat.le_succ _

theorem maybeSaveUserName_mem (st : MemoryStore) (tid text : String) :
    ∀ r ∈ st.recs, r ∈ ((maybeSaveUserName st tid text).1).recs := by
  unfold maybeSaveUserName
  cases extractUserName text with
  | none => exact fun r hr => hr
  | some name =>
    dsimp only
    split
    · exact fun r hr => hr
    · cases getKnownName st tid with
      | none => exact fun r hr => List.mem_cons_of_mem _ hr
      | some known =>
        dsimp only
        split
        · exact fun r hr => hr
        · exact fun r hr => List.mem_cons_of_mem _ hr

theorem maybeSaveUserName_count_le (st : MemoryStore) (tid text tid' c : String) :
    countContent st tid' c ≤ countContent ((maybeSaveUserName st tid text).1) tid' c := by
  unfold maybeSaveUserName
  cases extractUserName text with
  | none => exact Nat.le_refl _
  | some name =>
    dsimp only
    split
    · exact Nat.le_refl _
    · cases getKnownName st tid with
      | none => exact countContent_addMemory_le ..
      | some known =>
        dsimp only
        split
        · exact Nat.le_refl _
        · exact countContent_addMemory_le ..

theorem maybeSavePreference_match (st : MemoryStore) (tid text key val : String)
    (h : matchPref (pyStrip text) = some (key, val)) :
    maybeSavePreference st tid text =
      ((addMemory st tid (key ++ ":" ++ val) ["user_profile", key] 3 "agent").1,
       some (key ++ ":" ++ val)) := by
  unfold maybeSavePreference
  rw [h]

theorem insights_foldl_mono (tid : String) (t : List Char) (tid' c : String) :
    ∀ (ps : List ((List Char → Option (List Char)) × String))
      (acc : MemoryStore × List String),
      countContent acc.1 tid' c ≤ countContent ((ps.foldl (insightStep tid t) acc).1) tid' c ∧
      (∀ r ∈ acc.1.recs, r ∈ (((ps.foldl (insightStep tid t) acc).1).recs)) := by
  intro ps
  induction ps with
  | nil => exact fun acc => ⟨Nat.le_refl _, fun r hr => hr⟩
  | cons p ps ih =>
    intro acc
    rw [List.foldl_cons]
    have hstep : countContent acc.1 tid' c ≤ countContent ((insightStep tid t acc p).1) tid' c ∧
        (∀ r ∈ acc.1.recs, r ∈ ((insightStep tid t acc p).1).recs) := by
      unfold insightStep
      cases searchAny p.1 t with
      | none => exact ⟨Nat.le_refl _, fun r hr => hr⟩
      | some cap =>
        exact ⟨countContent_addMemory_le .., fun r hr => List.mem_cons_of_mem _ hr⟩
    obtain ⟨ih1, ih2⟩ := ih (insightStep tid t acc p)
    exact ⟨Nat.le_trans hstep.1 ih1, fun r hr => ih2 r (hstep.2 r hr)⟩

theorem maybeSaveAssistantInsights_count_le (st : MemoryStore) (tid text tid' c : String) :
    countContent st tid' c ≤
      countContent ((maybeSaveAssistantInsights st tid text).1) tid' c := by
  unfold maybeSaveAssistantInsights
  exact (insights_foldl_mono tid (pyStripL text.data) tid' c INSIGHT_PATTERNS (st, [])).1

theorem maybeSaveAssistantInsights_mem (st : MemoryStore) (tid text : String) :
    ∀ r ∈ st.recs, r ∈ ((maybeSaveAssistantInsights st tid text).1).recs := by
  unfold maybeSaveAssistantInsights
  exact (insights_foldl_mono tid (pyStripL text.data) "" "" INSIGHT_PATTERNS (st, [])).2

theorem runInternalChatA_store_of_ok (o : Oracle) (message : String)
    (thread_id : Option String) (st : MemoryStore)
    (hok : internalTurnOk o message thread_id st = true) :
    ∃ t, runInternalChatA o message thread_id st =
      (t, postprocessTurnMemory
            (entryStore st (resolveThread "internal_staff_session" thread_id) message)
            (resolveThread "internal_staff_session" thread_id) message t) := by
  unfold internalTurnOk at hok
  unfold runInternalChatA
  cases hrun : runInternalTurn o (internalInitState o message thread_id st) with
  | error e => rw [hrun] at hok; cases hok
  | ok pr =>
    obtain ⟨s', tr⟩ := pr
    rw [hrun] at hok
    dsimp only at hok
    cases hft : finalTextOf s'.messages with
    | none => rw [hft] at hok; cases hok
    | some t =>
      dsimp only
      rw [hft]
      exact ⟨t, rfl⟩

/-- C10: on a turn whose user message matches a preference-family
pattern and which completes normally, the pipeline inserts the matched
fact twice with identical content — once at turn entry before invoking
the graph and once at turn exit inside the memory postprocess — each
time under a fresh id, with no deduplication of preference-family
facts. -/
theorem preference_saved_twice_per_turn (o : Oracle) (message : String)
    (thread_id : Option String) (st : MemoryStore) (key val : String)
    (hmatch : matchPref (pyStrip message) = some (key, val))
    (hok : internalTurnOk o message thread_id st = true)
    (hwf : WFStore st) :
    countContent st (resolveThread "internal_staff_session" thread_id)
        (key ++ ":" ++ val) + 2 ≤
      countContent ((runInternalChatA o message thread_id st).2)
        (resolveThread "internal_staff_session" thread_id) (key ++ ":" ++ val) ∧
    ∃ i1 i2, i1 ≠ i2 ∧
      (∃ r1 ∈ ((runInternalChatA o message thread_id st).2).recs,
        r1.id = i1 ∧ r1.thread_id = resolveThread "internal_staff_session" thread_id ∧
          r1.content = key ++ ":" ++ val) ∧
      (∃ r2 ∈ ((runInternalChatA o message thread_id st).2).recs,
        r2.id = i2 ∧ r2.thread_id = resolveThread "internal_staff_session" thread_id ∧
          r2.content = key ++ ":" ++ val) ∧
      ∀ r ∈ st.recs, r.id ≠ i1 ∧ r.id ≠ i2 := by
  obtain ⟨t, hres⟩ := runInternalChatA_store_of_ok o message thread_id st hok
  rw [hres]
  dsimp only
  set tid := resolveThread "internal_staff_session" thread_id with htid
  set c := key ++ ":" ++ val with hc
  -- unfold the entry stores
  have hentry : entryStore st tid message =
      (addMemory ((maybeSaveUserName st tid message).1) tid c ["user_profile", key] 3
        "agent").1 := by
    unfold entryStore
    rw [maybeSavePreference_match _ _ _ _ _ hmatch]
  set st1 := (maybeSaveUserName st tid message).1 with hst1
  set st2 := (addMemory st1 tid c ["user_profile", key] 3 "agent").1 with hst2
  have hpost : postprocessTurnMemory (entryStore st tid message) tid message t =
      (maybeSaveAssistantInsights
        ((addMemory st2 tid c ["user_profile", key] 3 "agent").1) tid t).1 := by
    unfold postprocessTurnMemory
    rw [hentry, maybeSavePreference_match _ _ _ _ _ hmatch]
  rw [hpost]
  set st3 := (addMemory st2 tid c ["user_profile", key] 3 "agent").1 with hst3
  constructor
  · -- count grows by at least two
    have h1 : countContent st tid c ≤ countContent st1 tid c :=
      maybeSaveUserName_count_le st tid message tid c
    have h2 : countContent st2 tid c = countContent st1 tid c + 1 :=
      countContent_addMemory_same ..
    have h3 : countContent st3 tid c = countContent st2 tid c + 1 :=
      countContent_addMemory_same ..
    have h4 : countContent st3 tid c ≤
        countContent ((maybeSaveAssistantInsights st3 tid t).1) tid c :=
      maybeSaveAssistantInsights_count_le ..
    omega
  · -- the two fresh ids
    refine ⟨st1.next, st2.next, ?_, ?_, ?_, ?_⟩
    · rw [hst2, addMemory_next]
      omega
    · -- the first preference record survives to the final store
      refine ⟨⟨st1.next, tid, c, ["user_profile", key], 3, "agent", st1.next⟩, ?_, rfl, rfl, rfl⟩
      apply maybeSaveAssistantInsights_mem
      apply addMemory_mem
      exact List.mem_cons_self ..
    · refine ⟨⟨st2.next, tid, c, ["user_profile", key], 3, "agent", st2.next⟩, ?_, rfl, rfl, rfl⟩
      apply maybeSaveAssistantInsights_mem
      exact List.mem_cons_self ..
    · intro r hr
      have hlt : r.id < st.next := hwf r hr
      have hle : st.next ≤ st1.next := maybeSaveUserName_next_le st tid message
      have h2 : st2.next = st1.next + 1 := addMemory_next ..
      omega

/-- Witness for C10 at a concrete completed turn. -/
theorem preference_saved_twice_per_turn_witness :
    countContent emptyStore "internal_staff_session" ("preference" ++ ":" ++ "mango") + 2 ≤
      countContent ((runInternalChatA oConvW "i like mango" none emptyStore).2)
        "internal_staff_session" ("preference" ++ ":" ++ "mango") := by
  have h := preference_saved_twice_per_turn oConvW "i like mango" none emptyStore
    "preference" "mango" rfl rfl (fun r hr => absurd hr (List.not_mem_nil r))
  exact h.1

end RestaurantAi
